import Mathlib

/-!
Verification development for the core game crate of a tick-driven roguelike
engine (entity-component world, spatial index, door/projectile actions,
turn-orchestrating game state machine).

The Rust source is embedded shallowly:
* machine integers become `Nat` (all the quantities involved are
  non-negative and no overflow-relevant arithmetic occurs on the verified
  paths);
* fallible code (paths that `panic!`/`expect` in Rust) returns `Option`;
* typed recoverable errors (`action::Error`) become `Except`;
* component tables (`entity_table::ComponentTable`) become association
  lists keyed by entity id;
* the spatial table, RNG, terrain generator, behaviour, visibility and
  realtime-scheduling internals live in external crates or in modules whose
  sources are not part of the reviewed tree; each such definition carries a
  doc comment starting with "Modelled from the spec:".
-/

deriving instance DecidableEq for Except

namespace Gb

/-- Entity identifiers, as allocated by `entity_table::EntityAllocator`. -/
abbrev Entity := Nat

/-- Grid coordinate (`grid_2d::Coord`), a pair of signed integers. -/
structure Coord where
  x : Int
  y : Int
  deriving DecidableEq, Repr

/-- Coordinate addition, as in `grid_2d`. -/
def Coord.add (a b : Coord) : Coord := ⟨a.x + b.x, a.y + b.y⟩

/-- Cardinal directions (`direction::CardinalDirection`). -/
inductive CardinalDirection where
  | north
  | east
  | south
  | west
  deriving DecidableEq, Repr

/-- Unit coordinate of a cardinal direction, matching the `direction` crate
(north decreases `y`, south increases `y`). -/
def CardinalDirection.coord : CardinalDirection → Coord
  | .north => ⟨0, -1⟩
  | .east => ⟨1, 0⟩
  | .south => ⟨0, 1⟩
  | .west => ⟨-1, 0⟩

/-- Eight-way directions (`direction::Direction`), used by projectiles. -/
inductive Dir8 where
  | north
  | northEast
  | east
  | southEast
  | south
  | southWest
  | west
  | northWest
  deriving DecidableEq, Repr

/-- Unit coordinate of an eight-way direction. -/
def Dir8.coord : Dir8 → Coord
  | .north => ⟨0, -1⟩
  | .northEast => ⟨1, -1⟩
  | .east => ⟨1, 0⟩
  | .southEast => ⟨1, 1⟩
  | .south => ⟨0, 1⟩
  | .southWest => ⟨-1, 1⟩
  | .west => ⟨-1, 0⟩
  | .northWest => ⟨0, -1⟩

/-- Embedding of `CardinalDirection::direction()`. -/
def CardinalDirection.direction : CardinalDirection → Dir8
  | .north => .north
  | .east => .east
  | .south => .south
  | .west => .west

/-! ## Component tables

A `ComponentTable` from the `entity_table` crate is a map from entity to
value.  We embed it as an association list; `tinsert` removes any previous
binding and conses the new one, `tmodify` updates a value in place (the
`get_mut` pattern), `terase` drops every binding of the key. -/

/-- Association-list embedding of `entity_table::ComponentTable`. -/
abbrev Table (α : Type) := List (Entity × α)

/-- Lookup (`ComponentTable::get`). -/
def tget {α : Type} : Table α → Entity → Option α
  | [], _ => none
  | p :: t, e => if p.1 = e then some p.2 else tget t e

/-- Membership test (`ComponentTable::contains`). -/
def tcontains {α : Type} (t : Table α) (e : Entity) : Bool :=
  (tget t e).isSome

/-- Remove every binding of a key (`ComponentTable::remove`). -/
def terase {α : Type} (t : Table α) (e : Entity) : Table α :=
  t.filter (fun p => decide (p.1 ≠ e))

/-- Insert, replacing any previous binding (`ComponentTable::insert`). -/
def tinsert {α : Type} (t : Table α) (e : Entity) (v : α) : Table α :=
  (e, v) :: terase t e

/-- Update a value in place, preserving table order (the `get_mut`
pattern). -/
def tmodify {α : Type} (t : Table α) (e : Entity) (f : α → α) : Table α :=
  t.map (fun p => if p.1 = e then (p.1, f p.2) else p)

/-- Keys of a table (`ComponentTable::entities`). -/
def tkeys {α : Type} (t : Table α) : List Entity :=
  t.map (fun p => p.1)

/-! ## Spatial index -/

/-- Spatial layers, as declared by `declare_layers_module!` in
`world/spatial.rs`. -/
inductive Layer where
  | floor
  | feature
  | character
  | item
  deriving DecidableEq, Repr

/-- Location: coordinate plus optional layer (`spatial_table::Location`). -/
structure Location where
  coord : Coord
  layer : Option Layer
  deriving DecidableEq, Repr

/-- Per-coordinate layer occupancy (`Layers` generated in
`world/spatial.rs`). -/
structure Layers where
  floor : Option Entity
  feature : Option Entity
  character : Option Entity
  item : Option Entity
  deriving DecidableEq, Repr

/-- Modelled from the spec: the `spatial_table` crate (not part of the
reviewed sources) keeps a bidirectional entity/location map over a fixed
grid and enforces at most one occupant per layer per coordinate; rejected
moves return the occupant (spec section 4.2). -/
structure SpatialTable where
  width : Nat
  height : Nat
  entries : Table Location
  deriving DecidableEq, Repr

/-- Bounds test of the spatial grid. -/
def SpatialTable.inBounds (s : SpatialTable) (c : Coord) : Bool :=
  decide (0 ≤ c.x) && decide (c.x < (s.width : Int)) &&
    decide (0 ≤ c.y) && decide (c.y < (s.height : Int))

/-- Embedding of `SpatialTable::location_of`. -/
def SpatialTable.location_of (s : SpatialTable) (e : Entity) : Option Location :=
  tget s.entries e

/-- Embedding of `SpatialTable::coord_of`. -/
def SpatialTable.coord_of (s : SpatialTable) (e : Entity) : Option Coord :=
  (s.location_of e).map (fun l => l.coord)

/-- Occupant of one layer at one coordinate. -/
def SpatialTable.occupant (s : SpatialTable) (c : Coord) (l : Layer) : Option Entity :=
  (s.entries.find? (fun p => decide (p.2.coord = c) && decide (p.2.layer = some l))).map
    (fun p => p.1)

/-- Embedding of `SpatialTable::layers_at`: `none` out of bounds. -/
def SpatialTable.layers_at (s : SpatialTable) (c : Coord) : Option Layers :=
  if s.inBounds c then
    some ⟨s.occupant c .floor, s.occupant c .feature, s.occupant c .character,
      s.occupant c .item⟩
  else none

/-- Error type of `SpatialTable::update_coord`; `unwrap_occupied_by`
panics on the out-of-bounds variant. -/
inductive UpdateError where
  | occupiedBy (e : Entity)
  | destinationOutOfBounds
  deriving DecidableEq, Repr

/-- Modelled from the spec: `SpatialTable::update_coord` moves an entity to
a new coordinate on its current layer, failing with the occupant when the
destination layer cell is taken and without mutating state on failure
(spec section 4.2). An entity with no spatial entry is left untouched (the
crate treats this as a caller bug; all call sites in the embedded code
guard it). -/
def SpatialTable.update_coord (s : SpatialTable) (e : Entity) (c : Coord) :
    Except UpdateError SpatialTable :=
  match tget s.entries e with
  | none => .ok s
  | some loc =>
    if s.inBounds c then
      match loc.layer with
      | none => .ok { s with entries := tinsert s.entries e ⟨c, none⟩ }
      | some l =>
        match s.occupant c l with
        | some o =>
          if o = e then .ok { s with entries := tinsert s.entries e ⟨c, some l⟩ }
          else .error (.occupiedBy o)
        | none => .ok { s with entries := tinsert s.entries e ⟨c, some l⟩ }
    else .error .destinationOutOfBounds

/-- Embedding of `SpatialTable::remove`. -/
def SpatialTable.remove (s : SpatialTable) (e : Entity) : SpatialTable :=
  { s with entries := terase s.entries e }

/-! ## Component data types (world/data.rs, world/player.rs)

The concrete `data.rs` of this revision is not part of the reviewed
sources; the component value types below are reconstructed from their uses
in `world/action.rs`, `world/mod.rs` and `src/lib.rs`, with fields not
exercised by any embedded function omitted. -/

/-- Hit points (`HitPoints { current, max }`). -/
structure HitPoints where
  current : Nat
  max : Nat
  deriving DecidableEq, Repr

/-- Armour (`Armour { value }`). -/
structure Armour where
  value : Nat
  deriving DecidableEq, Repr

/-- Oxygen (`Oxygen { current, max }`). -/
structure Oxygen where
  current : Nat
  max : Nat
  deriving DecidableEq, Repr

/-- Door state component (`DoorState`). -/
inductive DoorState where
  | opened
  | closed
  deriving DecidableEq, Repr

/-- Door orientation axis used by door tiles. -/
inductive Axis where
  | x
  | y
  deriving DecidableEq, Repr

/-- Tiles, restricted to the variants inspected by the embedded
functions. -/
inductive Tile where
  | doorClosed (a : Axis)
  | doorOpen (a : Axis)
  | wall
  | floor
  | stairs
  | bullet
  deriving DecidableEq, Repr

/-- Half-speed movement component (`MoveHalfSpeed { skip_next_move }`). -/
structure MoveHalfSpeed where
  skip_next_move : Bool
  deriving DecidableEq, Repr

/-- Projectile damage component
(`ProjectileDamage { hit_points, push_back, pen, hull_pen_percent }`). -/
structure ProjectileDamage where
  hit_points : Nat
  push_back : Bool
  pen : Nat
  hull_pen_percent : Nat
  deriving DecidableEq, Repr

/-- Collision filter of a projectile (`CollidesWith`). -/
structure CollidesWith where
  solid : Bool
  character : Bool
  deriving DecidableEq, Repr

/-- Modelled from the spec: the `Default` instance for `CollidesWith`
(projectiles collide with solid features unless configured otherwise,
spec section 4.5). -/
def CollidesWith.defaultValue : CollidesWith := ⟨true, false⟩

/-- Modelled from the spec: explosion parameters (spec section 4.5 lists an
explosion as the secondary effect of a terminating projectile collision);
the concrete spec type lives in the absent `world/explosion.rs`. -/
structure ExplosionSpec where
  radius : Nat
  dmg : Nat
  deriving DecidableEq, Repr

/-- Collision reaction component (`OnCollision`). -/
inductive OnCollision where
  | explode (spec : ExplosionSpec)
  | remove
  | removeRealtime
  deriving DecidableEq, Repr

/-- Melee weapon abilities (`player::WeaponAbility`); only `KnockBack` is
acted on by the embedded code. -/
inductive WeaponAbility where
  | knockBack
  | other
  deriving DecidableEq, Repr

/-- Modelled from the spec: the melee weapon record carried by the player
(the `player.rs` of this revision is absent from the reviewed sources);
`pen` and `dmg` back `melee_pen()`/`melee_dmg()`. -/
structure MeleeWeapon where
  pen : Nat
  dmg : Nat
  abilities : List WeaponAbility
  deriving DecidableEq, Repr

/-- Upgrade levels (`player::UpgradeLevel`). -/
inductive UpgradeLevel where
  | level1
  | level2
  deriving DecidableEq, Repr

/-- Modelled from the spec: the credit cost of an upgrade level
(`UpgradeLevel::cost()` lives in the absent `player.rs`; the spec only
requires that an upgrade has a cost checked against the player's
currency). -/
def UpgradeLevel.cost : UpgradeLevel → Nat
  | .level1 => 5
  | .level2 => 10

/-- Upgrade types (`player::UpgradeType`). -/
inductive UpgradeType where
  | toughness
  | accuracy
  | endurance
  deriving DecidableEq, Repr

/-- An upgrade (`player::Upgrade { typ, level }`). -/
structure Upgrade where
  typ : UpgradeType
  level : UpgradeLevel
  deriving DecidableEq, Repr

/-- Player upgrade table (`player::UpgradeTable`). -/
structure UpgradeTable where
  toughness : Option UpgradeLevel
  accuracy : Option UpgradeLevel
  endurance : Option UpgradeLevel
  deriving DecidableEq, Repr

/-- Player traits toggled by upgrades. -/
structure PlayerTraits where
  reduce_hull_pen : Bool
  double_damage : Bool
  half_vacuum_pull : Bool
  deriving DecidableEq, Repr

/-- Player component, reconstructed from its uses in `apply_upgrade` and
the melee path of `world/action.rs`. -/
structure Player where
  credit : Nat
  upgrade_table : UpgradeTable
  traits : PlayerTraits
  ranged_weapons : List (Option Unit)
  melee_weapon : MeleeWeapon
  deriving DecidableEq, Repr

/-- Embedding of `Player::melee_pen()`. -/
def Player.melee_pen (p : Player) : Nat := p.melee_weapon.pen

/-- Embedding of `Player::melee_dmg()`. -/
def Player.melee_dmg (p : Player) : Nat := p.melee_weapon.dmg

/-- Typed action errors (`world/action.rs` enum `Error`). -/
inductive ActionError where
  | walkIntoSolidCell
  | cannotAffordUpgrade
  deriving DecidableEq, Repr

/-- Game control flow values surfaced to the caller (`GameControlFlow`;
the `Upgrade` variant is referenced by `world/action.rs`). -/
inductive GameControlFlow where
  | gameOver
  | win
  | levelChange
  | upgrade
  deriving DecidableEq, Repr

/-! ## RNG -/

/-- Modelled from the spec: the RNG is a single deterministic seeded
stream (spec sections 1 and 5); the concrete Isaac64 generator is an
external crate, so we embed a deterministic 64-bit linear congruential
stream with the same interface shape. -/
abbrev Rng := Nat

/-- Draw the next value from the deterministic stream. -/
def rngNext (s : Rng) : Nat × Rng :=
  let s2 := (s * 6364136223846793005 + 1442695040888963407) % (2 ^ 64)
  (s2 / (2 ^ 16), s2)

/-- Embedding of `rng.gen_range(0..n)` over the modelled stream. -/
def rngRange (s : Rng) (n : Nat) : Nat × Rng :=
  let (v, s2) := rngNext s
  (v % n, s2)

/-! ## Components and world -/

/-- The component tables exercised by the embedded functions
(`Components` in the absent `world/data.rs`, reconstructed from use
sites). -/
structure Components where
  solid : Table Unit
  opacity : Table Nat
  tile : Table Tile
  door_state : Table DoorState
  door_close_countdown : Table Nat
  player : Table Player
  hit_points : Table HitPoints
  oxygen : Table Oxygen
  armour : Table Armour
  to_remove : Table Unit
  upgrade : Table Unit
  move_half_speed : Table MoveHalfSpeed
  projectile_damage : Table ProjectileDamage
  collides_with : Table CollidesWith
  on_collision : Table OnCollision
  destructible : Table Unit
  character : Table Unit
  blocks_gameplay : Table Unit
  npc : Table Unit
  damage : Table Nat
  realtime : Table Unit
  stairs : Table Unit
  deriving DecidableEq, Repr

/-- Embedding of `Components::remove_entity`: drop the entity from every
table. -/
def Components.remove_entity (c : Components) (e : Entity) : Components where
  solid := terase c.solid e
  opacity := terase c.opacity e
  tile := terase c.tile e
  door_state := terase c.door_state e
  door_close_countdown := terase c.door_close_countdown e
  player := terase c.player e
  hit_points := terase c.hit_points e
  oxygen := terase c.oxygen e
  armour := terase c.armour e
  to_remove := terase c.to_remove e
  upgrade := terase c.upgrade e
  move_half_speed := terase c.move_half_speed e
  projectile_damage := terase c.projectile_damage e
  collides_with := terase c.collides_with e
  on_collision := terase c.on_collision e
  destructible := terase c.destructible e
  character := terase c.character e
  blocks_gameplay := terase c.blocks_gameplay e
  npc := terase c.npc e
  damage := terase c.damage e
  realtime := terase c.realtime e
  stairs := terase c.stairs e

/-- Snapshot of one entity's component values (`EntityData`), restricted to
the embedded tables that matter for the claims. -/
structure EntityData where
  player : Option Player
  hit_points : Option HitPoints
  oxygen : Option Oxygen
  armour : Option Armour
  tile : Option Tile
  deriving DecidableEq, Repr

/-- Embedding of `Components::clone_entity_data` over the embedded
fields. -/
def Components.clone_entity_data (c : Components) (e : Entity) : EntityData where
  player := tget c.player e
  hit_points := tget c.hit_points e
  oxygen := tget c.oxygen e
  armour := tget c.armour e
  tile := tget c.tile e

/-- Movement schedule of a projectile.  Modelled from the spec: each
realtime-capable entity owns one countdown-and-payload record; on expiry
the payload is applied to the world and a new countdown is scheduled (spec
sections 3 and 4.5).  The concrete scheduling core lives in the absent
`world/realtime_periodic` modules. -/
structure MovementSchedule where
  direction : Dir8
  cd : Nat
  period : Nat
  deriving DecidableEq, Repr

/-- Realtime component tables (`RealtimeComponents`), restricted to the
movement schedule exercised by the embedded functions. -/
structure RealtimeComponents where
  movement : Table MovementSchedule
  deriving DecidableEq, Repr

/-- Embedding of `RealtimeComponents::remove_entity`. -/
def RealtimeComponents.remove_entity (r : RealtimeComponents) (e : Entity) :
    RealtimeComponents :=
  { movement := terase r.movement e }

/-- The world (`world/mod.rs` struct `World`).  The `won` flag stands for
the win predicate `World::is_won` whose defining module (`world/query.rs`)
is absent from the reviewed sources; per spec section 4.6 the win
condition only changes on turn-affecting steps, so it is carried as state
toggled by no embedded operation. -/
structure World where
  level : Nat
  entity_allocator : List Entity
  components : Components
  realtime_components : RealtimeComponents
  spatial_table : SpatialTable
  won : Bool
  deriving DecidableEq, Repr

/-- Embedding of `World::entity_exists`. -/
def World.entity_exists (w : World) (e : Entity) : Bool :=
  w.entity_allocator.contains e && !(tcontains w.components.to_remove e)

/-- Embedding of `EntityAllocator::free`. -/
def World.free_entity (w : World) (e : Entity) : World :=
  { w with entity_allocator := w.entity_allocator.filter (fun x => decide (x ≠ e)) }

/-- Embedding of `World::is_gameplay_blocked`. -/
def World.is_gameplay_blocked (w : World) : Bool :=
  !w.components.blocks_gameplay.isEmpty

/-- Embedding of `World::entity_coord`. -/
def World.entity_coord (w : World) (e : Entity) : Option Coord :=
  w.spatial_table.coord_of e

/-- Embedding of `World::is_won` (see the doc comment on `World.won`). -/
def World.is_won (w : World) : Bool := w.won

/-! ## External events -/

/-- Music cues (`Music`). -/
inductive Music where
  | gameplay0
  | gameplay1
  | gameplay2
  | boss
  deriving DecidableEq, Repr

/-- Events reported to the io layer (`ExternalEvent`). -/
inductive ExternalEvent where
  | explosion (c : Coord)
  | loopMusic (m : Music)
  deriving DecidableEq, Repr

/-! ## World actions (world/action.rs, world/mod.rs)

The source passes a `&mut R: Rng` argument to several functions whose
bodies never draw from it (`wait`, `damage_character`,
`apply_projectile_damage`); those parameters are dropped here, since a
mutable reference that is never used leaves the stream untouched. -/

/-- Embedding of `World::after_player_move` (its body is empty in the
source). -/
def World.after_player_move (w : World) (_character : Entity) (_target : Coord)
    (rng : Rng) : World × Rng :=
  (w, rng)

/-- Embedding of `World::wait`. -/
def World.wait (w : World) (e : Entity) (rng : Rng) : World × Rng :=
  match w.spatial_table.coord_of e with
  | some coord => w.after_player_move e coord rng
  | none => (w, rng)

/-- Embedding of `World::character_die` (marks the entity for removal). -/
def World.character_die (w : World) (c : Entity) : World :=
  { w with components.to_remove := tinsert w.components.to_remove c () }

/-- Embedding of `World::damage_character`; `none` models the panic when
the victim has no `hit_points` component. -/
def World.damage_character (w : World) (c : Entity) (hit_points_to_lose : Nat) :
    Option World :=
  match tget w.components.hit_points c with
  | none => none
  | some hp =>
    if hp.current ≤ hit_points_to_lose then
      let w := { w with
        components.hit_points :=
          tmodify w.components.hit_points c (fun h => { h with current := 0 }) }
      some (w.character_die c)
    else
      some { w with
        components.hit_points :=
          tmodify w.components.hit_points c
            (fun h => { h with current := h.current - hit_points_to_lose }) }

/-- Modelled from the spec: `World::is_solid_feature_at_coord` (its
defining module `world/query.rs` is absent); a cell holds a solid feature
when its feature-layer occupant carries the `solid` component. -/
def World.is_solid_feature_at_coord (w : World) (c : Coord) : Bool :=
  match w.spatial_table.layers_at c with
  | some layers =>
    match layers.feature with
    | some f => tcontains w.components.solid f
    | none => false
  | none => false

/-- Embedding of `World::character_push_in_direction`. -/
def World.character_push_in_direction (w : World) (e : Entity) (d : Dir8) : World :=
  match w.spatial_table.coord_of e with
  | none => w
  | some current =>
    let target := current.add d.coord
    if w.is_solid_feature_at_coord target then w
    else
      match w.spatial_table.update_coord e target with
      | .ok s => { w with spatial_table := s }
      | .error _ => w

/-- Embedding of `World::player_melee_attack`; `none` models the panics
when the attacker lacks the `player` component or the victim lacks
`armour`. -/
def World.player_melee_attack (w : World) (attacker victim : Entity)
    (direction : CardinalDirection) (rng : Rng) : Option (World × Rng) := do
  let player ← tget w.components.player attacker
  let armour ← tget w.components.armour victim
  let w ←
    if armour.value ≤ player.melee_pen then
      let dmg := player.melee_dmg
      let dmg := if player.traits.double_damage then dmg * 2 else dmg
      w.damage_character victim dmg
    else pure w
  let player2 ← tget w.components.player attacker
  let w := player2.melee_weapon.abilities.foldl
    (fun w a =>
      match a with
      | .knockBack =>
        (w.character_push_in_direction victim direction.direction).character_push_in_direction
          victim direction.direction
      | .other => w)
    w
  pure (w.wait attacker rng)

/-- Embedding of `World::npc_melee_attack`; `none` models the panic when
the attacker lacks the `damage` component. -/
def World.npc_melee_attack (w : World) (attacker victim : Entity) : Option World := do
  let damage ← tget w.components.damage attacker
  w.damage_character victim damage

/-- Embedding of `World::melee_attack`. -/
def World.melee_attack (w : World) (attacker victim : Entity)
    (direction : CardinalDirection) (rng : Rng) : Option (World × Rng) :=
  if (tget w.components.player attacker).isSome then
    w.player_melee_attack attacker victim direction rng
  else if (tget w.components.player victim).isSome then
    (w.npc_melee_attack attacker victim).map (fun w2 => (w2, rng))
  else some (w, rng)

/-- Embedding of `World::open_door`; `none` models the panic when the door
has no (door) tile. -/
def World.open_door (w : World) (door : Entity) : Option World := do
  let w := { w with
    components.solid := terase w.components.solid door,
    components.opacity := terase w.components.opacity door }
  let axis ←
    (match tget w.components.tile door with
    | some (Tile.doorClosed a) => some a
    | some (Tile.doorOpen a) => some a
    | _ => (none : Option Axis))
  pure { w with
    components.tile := tinsert w.components.tile door (.doorOpen axis),
    components.door_close_countdown := tinsert w.components.door_close_countdown door 4 }

/-- Embedding of `World::close_door`; `none` models the panic when the
door has no (door) tile. -/
def World.close_door (w : World) (door : Entity) : Option World := do
  let w := { w with
    components.solid := tinsert w.components.solid door (),
    components.opacity := tinsert w.components.opacity door 255 }
  let axis ←
    (match tget w.components.tile door with
    | some (Tile.doorClosed a) => some a
    | some (Tile.doorOpen a) => some a
    | _ => (none : Option Axis))
  pure { w with components.tile := tinsert w.components.tile door (.doorClosed axis) }

/-- Whether a character occupies the given coordinate (the reset test in
`World::process_door_close_countdown`). -/
def World.doorOccupied (w : World) (c : Coord) : Bool :=
  match w.spatial_table.layers_at c with
  | some layers => layers.character.isSome
  | none => false

/-- One entry of the `door_close_countdown` iteration in
`World::process_door_close_countdown`: the updated entry plus whether the
door is now due to close. -/
def doorStep (w : World) (p : Entity × Nat) : (Entity × Nat) × Bool :=
  match w.spatial_table.coord_of p.1 with
  | none => (p, false)
  | some c =>
    if w.doorOccupied c then ((p.1, 4), false)
    else if p.2 = 0 then (p, true)
    else ((p.1, p.2 - 1), false)

/-- Body of the closing loop of `World::process_door_close_countdown`:
unschedule the countdown and close the door. -/
def closeOne (w : World) (e : Entity) : Option World :=
  let w := { w with
    components.door_close_countdown := terase w.components.door_close_countdown e }
  w.close_door e

/-- The `door_close_countdown` entries after the in-place iteration of
`World::process_door_close_countdown`, paired with their due-to-close
flags. -/
def World.doorProcessed (w : World) : List ((Entity × Nat) × Bool) :=
  w.components.door_close_countdown.map (fun p => doorStep w p)

/-- The updated countdown table of the processing pass. -/
def World.doorTable2 (w : World) : Table Nat :=
  w.doorProcessed.map (fun q => q.1)

/-- The doors collected for closing by the processing pass. -/
def World.doorToClose (w : World) : List Entity :=
  (w.doorProcessed.filter (fun q => q.2)).map (fun q => q.1.1)

/-- Embedding of `World::process_door_close_countdown`: update every
countdown in place against the pre-pass spatial table, then close the
doors whose countdown had expired. -/
def World.process_door_close_countdown (w : World) : Option World :=
  w.doorToClose.foldlM closeOne { w with components.door_close_countdown := w.doorTable2 }

/-- Chebyshev distance between two coordinates. -/
def chebyshev (a b : Coord) : Nat :=
  max (a.x - b.x).natAbs (a.y - b.y).natAbs

/-- Modelled from the spec: `explosion::explode` (its module is absent):
report the explosion position to the io layer and damage every character
within the blast radius (spec sections 4.5 and 6). -/
def World.explode (w : World) (c : Coord) (spec : ExplosionSpec)
    (evs : List ExternalEvent) : Option (World × List ExternalEvent) := do
  let evs := evs ++ [ExternalEvent.explosion c]
  let victims := (w.spatial_table.entries.filter
    (fun p => decide (p.2.layer = some .character) && decide (chebyshev p.2.coord c ≤ spec.radius))).map
    (fun p => p.1)
  let w ← victims.foldlM (fun w v => w.damage_character v spec.dmg) w
  pure (w, evs)

/-- Tear a projectile entity fully down (the shared tail of the `Explode`
and `Remove` arms of `World::projectile_stop`). -/
def World.teardown_projectile (w : World) (e : Entity) : World :=
  let w := { w with spatial_table := w.spatial_table.remove e }
  let w := { w with components := w.components.remove_entity e }
  let w := w.free_entity e
  { w with realtime_components := w.realtime_components.remove_entity e }

/-- Embedding of `World::projectile_stop`. -/
def World.projectile_stop (w : World) (proj : Entity) (evs : List ExternalEvent)
    (rng : Rng) : Option (World × List ExternalEvent × Rng) := do
  let (w, evs) ←
    match w.spatial_table.coord_of proj with
    | some current =>
      match tget w.components.on_collision proj with
      | some (.explode spec) => do
        let (w, evs) ← w.explode current spec evs
        pure (w.teardown_projectile proj, evs)
      | some .remove => pure (w.teardown_projectile proj, evs)
      | some .removeRealtime =>
        let w := { w with realtime_components := w.realtime_components.remove_entity proj }
        let w := { w with
          components.realtime := terase w.components.realtime proj,
          components.blocks_gameplay := terase w.components.blocks_gameplay proj }
        pure (w, evs)
      | none => pure (w, evs)
    | none => pure (w, evs)
  let w := { w with
    realtime_components.movement := terase w.realtime_components.movement proj }
  pure (w, evs, rng)

/-- Embedding of `World::apply_projectile_damage`. -/
def World.apply_projectile_damage (w : World) (proj : Entity)
    (pd : ProjectileDamage) (dir : Dir8) (victim : Entity) : Option World :=
  match tget w.components.armour victim with
  | none => some w
  | some armour =>
    if armour.value ≤ pd.pen then do
      let w ← w.damage_character victim pd.hit_points
      let w := if pd.push_back then w.character_push_in_direction victim dir else w
      let remaining := pd.pen - armour.value
      if 0 < remaining then
        pure { w with
          components.projectile_damage :=
            tinsert w.components.projectile_damage proj { pd with pen := remaining } }
      else
        pure { w with components := w.components.remove_entity proj }
    else
      some { w with components := w.components.remove_entity proj }

/-- Second half of `World::projectile_move`: resolve the collision of the
projectile with the (pre-move) occupants of the destination cell — the
destructible-removal roll and the terminating stop, or the spatial
advance. -/
def World.projectile_collide_resolve (w : World) (proj : Entity) (cell : Layers)
    (collides : CollidesWith) (next : Coord) (evs : List ExternalEvent) (rng : Rng) :
    Option (World × List ExternalEvent × Rng) :=
  match cell.feature.orElse (fun _ => cell.character) with
  | some entityInCell =>
    if (collides.solid && tcontains w.components.solid entityInCell)
        || (collides.character && tcontains w.components.character entityInCell) then
      let resolved : World × Rng :=
        match tget w.components.projectile_damage proj with
        | some pd =>
          if tcontains w.components.destructible entityInCell then
            let hull := pd.hull_pen_percent
            let hull :=
              match w.components.player with
              | [] => hull
              | p :: _ => if p.2.traits.reduce_hull_pen then hull / 2 else hull
            let (roll, rng2) := rngRange rng 100
            if roll < hull then
              (({ w with
                components := w.components.remove_entity entityInCell,
                spatial_table := w.spatial_table.remove entityInCell } : World), rng2)
            else (w, rng2)
          else (w, rng)
        | none => (w, rng)
      resolved.1.projectile_stop proj evs resolved.2
    else
      match w.spatial_table.update_coord proj next with
      | .ok s => some ({ w with spatial_table := s }, evs, rng)
      | .error _ => some (w, evs, rng)
  | none =>
    match w.spatial_table.update_coord proj next with
    | .ok s => some ({ w with spatial_table := s }, evs, rng)
    | .error _ => some (w, evs, rng)

/-- First half of `World::projectile_move`: the (possible) strike on a
character in the destination cell. -/
def World.projectile_strike (w : World) (proj : Entity) (dir : Dir8) (cell : Layers) :
    Option World :=
  match cell.character with
  | some ch =>
    match tget w.components.projectile_damage proj with
    | some pd => w.apply_projectile_damage proj pd dir ch
    | none => some w
  | none => some w

/-- Embedding of `World::projectile_move` (decomposed into
`projectile_strike` followed by `projectile_collide_resolve`, matching the
source's sequencing). -/
def World.projectile_move (w : World) (proj : Entity) (dir : Dir8)
    (evs : List ExternalEvent) (rng : Rng) : Option (World × List ExternalEvent × Rng) :=
  match w.spatial_table.coord_of proj with
  | some current =>
    let next := current.add dir.coord
    let collides := (tget w.components.collides_with proj).getD CollidesWith.defaultValue
    match w.spatial_table.layers_at next with
    | some cell =>
      (w.projectile_strike proj dir cell).bind
        (fun w => w.projectile_collide_resolve proj cell collides next evs rng)
    | none => w.projectile_stop proj evs rng
  | none =>
    let w := { w with components := w.components.remove_entity proj }
    let w := { w with realtime_components := w.realtime_components.remove_entity proj }
    let w := { w with spatial_table := w.spatial_table.remove proj }
    some (w, evs, rng)

/-- Embedding of `World::apply_upgrade`; `none` models the panics
(`unwrap`) when the entity lacks the `player` component, or lacks
`hit_points`/`oxygen` for the upgrades that double them. -/
def World.apply_upgrade (w : World) (entity : Entity) (u : Upgrade) :
    Option (Except ActionError Unit × World) := do
  let player ← tget w.components.player entity
  if player.credit < u.level.cost then
    pure (.error .cannotAffordUpgrade, w)
  else
    let player := { player with credit := player.credit - u.level.cost }
    let player :=
      match u.typ with
      | .toughness => { player with upgrade_table.toughness := some u.level }
      | .accuracy => { player with upgrade_table.accuracy := some u.level }
      | .endurance => { player with upgrade_table.endurance := some u.level }
    let player :=
      match u.typ, u.level with
      | .toughness, .level1 => { player with ranged_weapons := player.ranged_weapons ++ [none] }
      | .accuracy, .level1 => { player with traits.reduce_hull_pen := true }
      | .accuracy, .level2 => { player with traits.double_damage := true }
      | .endurance, .level1 => { player with traits.half_vacuum_pull := true }
      | _, _ => player
    let w := { w with components.player := tmodify w.components.player entity (fun _ => player) }
    let w ←
      match u.typ, u.level with
      | .toughness, .level2 => do
        let _ ← tget w.components.hit_points entity
        pure { w with
          components.hit_points :=
            tmodify w.components.hit_points entity
              (fun h => { current := h.current * 2, max := h.max * 2 }) }
      | .endurance, .level2 => do
        let _ ← tget w.components.oxygen entity
        pure { w with
          components.oxygen :=
            tmodify w.components.oxygen entity
              (fun o => { current := o.current * 2, max := o.max * 2 }) }
      | _, _ => pure w
    pure (.ok (), w)

/-- Tail of `World::character_walk_in_direction` after the half-speed
block. -/
def World.walk_core (w : World) (character : Entity) (d : CardinalDirection)
    (rng : Rng) : Option (Except ActionError (Option GameControlFlow) × World × Rng) :=
  match w.spatial_table.coord_of character with
  | none => none
  | some current =>
    let target := current.add d.coord
    let proceed : Option (Except ActionError (Option GameControlFlow) × World × Rng) :=
      match w.spatial_table.update_coord character target with
      | .error (.occupiedBy occupant) => do
        let (w2, rng2) ← w.melee_attack character occupant d rng
        pure (.ok none, w2, rng2)
      | .error .destinationOutOfBounds => none
      | .ok s =>
        let w2 := { w with spatial_table := s }
        if tcontains w2.components.player character then
          let (w3, rng3) := w2.after_player_move character target rng
          some (.ok none, w3, rng3)
        else some (.ok none, w2, rng)
    match w.spatial_table.layers_at target with
    | none => some (.error .walkIntoSolidCell, w, rng)
    | some cell =>
      match cell.feature with
      | some f =>
        if tcontains w.components.solid f then
          match tget w.components.door_state f with
          | some .closed => do
            let w2 ← w.open_door f
            pure (.ok none, w2, rng)
          | _ => some (.error .walkIntoSolidCell, w, rng)
        else if tcontains w.components.upgrade f then
          if tcontains w.components.player character then
            some (.ok (some .upgrade), w, rng)
          else some (.error .walkIntoSolidCell, w, rng)
        else proceed
      | none => proceed

/-- Embedding of `World::character_walk_in_direction`; `none` models the
panics (missing coordinate, door without a tile, out-of-bounds occupant
unwrap, melee component panics). -/
def World.character_walk_in_direction (w : World) (character : Entity)
    (d : CardinalDirection) (rng : Rng) :
    Option (Except ActionError (Option GameControlFlow) × World × Rng) :=
  match tget w.components.move_half_speed character with
  | some mhs =>
    if mhs.skip_next_move then
      let w := { w with
        components.move_half_speed :=
          tmodify w.components.move_half_speed character
            (fun m => { m with skip_next_move := false }) }
      some (.ok none, w, rng)
    else
      let w := { w with
        components.move_half_speed :=
          tmodify w.components.move_half_speed character
            (fun m => { m with skip_next_move := true }) }
      w.walk_core character d rng
  | none => w.walk_core character d rng

/-! ## Cleanup and queries (world/mod.rs) -/

/-- Record of the player's data captured at death (`PlayerDied`). -/
structure PlayerDied where
  data : EntityData
  deriving DecidableEq, Repr

/-- Body of the first `cleanup` loop: mark an entity for removal when its
current hit points are zero. -/
def markZeroHp (acc : Table Unit) (p : Entity × HitPoints) : Table Unit :=
  if p.2.current = 0 then tinsert acc p.1 () else acc

/-- Body of the second `cleanup` loop: drop one marked entity from every
component table, the spatial table and the allocator, capturing the
player's data when the player dies. -/
def sweepOne (acc : Option PlayerDied × World) (e : Entity) :
    Option PlayerDied × World :=
  let w2 := acc.2
  let ret :=
    if tcontains w2.components.player e then
      some (PlayerDied.mk (w2.components.clone_entity_data e))
    else acc.1
  let w3 := { w2 with components := w2.components.remove_entity e }
  let w3 := { w3 with spatial_table := w3.spatial_table.remove e }
  let w3 := w3.free_entity e
  (ret, w3)

/-- Embedding of `World::cleanup`: mark every zero-hit-point entity for
removal, then sweep every marked entity out of all component tables, the
spatial table and the allocator, capturing the player's data if the player
is among them. -/
def World.cleanup (w : World) : Option PlayerDied × World :=
  let marked := w.components.hit_points.foldl markZeroHp w.components.to_remove
  let w1 := { w with components.to_remove := marked }
  (tkeys marked).foldl sweepOne ((none : Option PlayerDied), w1)

/-- Read-only character snapshot (`CharacterInfo`). -/
structure CharacterInfo where
  coord : Coord
  hit_points : HitPoints
  oxygen : Oxygen
  deriving DecidableEq, Repr

/-- Embedding of `World::character_info`. -/
def World.character_info (w : World) (e : Entity) : Option CharacterInfo := do
  let coord ← w.spatial_table.coord_of e
  let hp ← tget w.components.hit_points e
  let ox ← tget w.components.oxygen e
  pure ⟨coord, hp, ox⟩

/-- Modelled from the spec: `World::get_stairs_at_coord` (its defining
module `world/query.rs` is absent): the feature-layer occupant carrying
the stairs marker, if any. -/
def World.get_stairs_at_coord (w : World) (c : Coord) : Option Entity :=
  match w.spatial_table.layers_at c with
  | some layers =>
    match layers.feature with
    | some f => if tcontains w.components.stairs f then some f else none
    | none => none
  | none => none

/-- Modelled from the spec: the realtime-periodic pass run once per
animation frame quantum (`World::animation_tick`; the scheduling core in
`world/realtime_periodic` is absent from the reviewed sources).  Every
scheduled entity whose countdown reached zero has its payload applied to
the world (projectile movement, the one payload wired into the embedding)
and is rescheduled; otherwise its countdown is decremented (spec
section 4.5). -/
def animStep (acc : World × List ExternalEvent × Rng) (p : Entity × MovementSchedule) :
    Option (World × List ExternalEvent × Rng) :=
  let (w, evs, rng) := acc
  match tget w.realtime_components.movement p.1 with
  | none => pure (w, evs, rng)
  | some m =>
    if m.cd = 0 then
      let w := { w with
        realtime_components.movement :=
          tmodify w.realtime_components.movement p.1
            (fun mm => { mm with cd := mm.period }) }
      w.projectile_move p.1 m.direction evs rng
    else
      pure (({ w with
        realtime_components.movement :=
          tmodify w.realtime_components.movement p.1
            (fun mm => { mm with cd := mm.cd - 1 }) } : World), evs, rng)

/-- See the doc comment above `animStep` for the missing-code provenance
of this pass. -/
def World.animation_tick (w : World) (evs : List ExternalEvent) (rng : Rng) :
    Option (World × List ExternalEvent × Rng) :=
  w.realtime_components.movement.foldlM animStep (w, evs, rng)

/-- Iterated door-countdown processing, used to state the exact closing
time. -/
def World.processIter (w : World) : Nat → Option World
  | 0 => some w
  | n + 1 => (w.process_door_close_countdown).bind (fun w2 => w2.processIter n)

/-- Hit points after losing `n` points, as computed by
`World::damage_character` (saturating at zero). -/
def HitPoints.afterDamage (hp : HitPoints) (n : Nat) : HitPoints :=
  if hp.current ≤ n then { hp with current := 0 } else { hp with current := hp.current - n }

/-! ## Concrete example states -/

/-- Empty component set. -/
def Components.empty : Components where
  solid := []
  opacity := []
  tile := []
  door_state := []
  door_close_countdown := []
  player := []
  hit_points := []
  oxygen := []
  armour := []
  to_remove := []
  upgrade := []
  move_half_speed := []
  projectile_damage := []
  collides_with := []
  on_collision := []
  destructible := []
  character := []
  blocks_gameplay := []
  npc := []
  damage := []
  realtime := []
  stairs := []

/-- Empty world over a small grid. -/
def World.empty (width height : Nat) : World where
  level := 0
  entity_allocator := []
  components := Components.empty
  realtime_components := { movement := [] }
  spatial_table := { width := width, height := height, entries := [] }
  won := false

/-- A plain player component value used by concrete examples. -/
def Player.basic : Player where
  credit := 0
  upgrade_table := ⟨none, none, none⟩
  traits := ⟨false, false, false⟩
  ranged_weapons := []
  melee_weapon := { pen := 1, dmg := 1, abilities := [] }

/-- Concrete world refuting C5 as stated: entity 7 (an item, say a
picked-up weapon) sits in the removal queue while no entity has zero hit
points. -/
def wC5 : World :=
  { World.empty 3 3 with
    entity_allocator := [1, 7],
    components := { Components.empty with
      to_remove := [(7, ())],
      hit_points := [(1, ⟨5, 5⟩)] } }

/-- Concrete strike configuration for the C2 witness: projectile 9 with
pen 3 and damage 4 strikes character 5 with armour 2 and 10 hit
points. -/
def wC2 : World :=
  { World.empty 4 3 with
    entity_allocator := [5, 9],
    components := { Components.empty with
      armour := [(5, ⟨2⟩)],
      hit_points := [(5, ⟨10, 10⟩)],
      character := [(5, ())],
      projectile_damage := [(9, ⟨4, false, 3, 0⟩)] } }

/-- Concrete world for the C3 counterexample: player 0 (with a
half-speed movement component whose skip flag is clear) stands at (1,1);
a solid wall, entity 2, fills the feature layer at (2,1). -/
def wC3 : World :=
  { World.empty 4 3 with
    entity_allocator := [0, 2],
    components := { Components.empty with
      player := [(0, Player.basic)],
      character := [(0, ())],
      move_half_speed := [(0, ⟨false⟩)],
      solid := [(2, ())],
      tile := [(2, Tile.wall)] },
    spatial_table := { width := 4, height := 3, entries :=
      [(0, ⟨⟨1, 1⟩, some .character⟩), (2, ⟨⟨2, 1⟩, some .feature⟩)] } }

/-- Variant of `wC3` without the half-speed component, used by the C3
witness. -/
def wC3b : World :=
  { wC3 with components := { wC3.components with move_half_speed := [] } }

/-- A freshly opened, unoccupied, well-formed scheduled door: the only
entry of the countdown table, with a spatial position, no character on its
cell, an open-door tile and no solidity. -/
def DoorFree (w : World) (d : Entity) (c : Coord) (a : Axis) (k : Nat) : Prop :=
  w.components.door_close_countdown = [(d, k)] ∧
  w.spatial_table.coord_of d = some c ∧
  w.doorOccupied c = false ∧
  tget w.components.tile d = some (.doorOpen a) ∧
  tget w.components.solid d = none

/-- Concrete freshly opened door used by the C4 witness and
counterexample: door 3 at (2,1), countdown 4, no characters anywhere. -/
def wC4 : World :=
  { World.empty 4 3 with
    entity_allocator := [3],
    components := { Components.empty with
      door_close_countdown := [(3, 4)],
      door_state := [(3, DoorState.opened)],
      tile := [(3, Tile.doorOpen .y)] },
    spatial_table := { width := 4, height := 3, entries :=
      [(3, ⟨⟨2, 1⟩, some .feature⟩)] } }

/-! ## Game orchestrator (src/lib.rs)

The orchestrator state machine is embedded from `src/lib.rs`.  Durations
(`std::time::Duration`) are embedded as natural numbers of milliseconds;
`checked_sub` becomes truncated `Nat` subtraction. -/

/-- Configuration (`Config { omniscient, demo }`); the omniscient option
is carried as a flag. -/
structure Config where
  omniscient : Bool
  demo : Bool
  deriving DecidableEq, Repr

/-- Tri-state cell visibility (`CellVisibility`). -/
inductive CellVisibility where
  | neverSeen
  | previouslySeen
  | visible
  deriving DecidableEq, Repr

/-- Per-cell visibility grid (`VisibilityGrid`). -/
structure VisibilityGrid where
  cells : List (Coord × CellVisibility)
  deriving DecidableEq, Repr

/-- All grid coordinates, row-major. -/
def allCoords (width height : Nat) : List Coord :=
  (List.range (width * height)).map (fun i => ⟨(i % width : Nat), (i / width : Nat)⟩)

/-- Embedding of `VisibilityGrid::new`: every cell starts `NeverSeen`. -/
def VisibilityGrid.new (width height : Nat) : VisibilityGrid :=
  ⟨(allCoords width height).map (fun c => (c, .neverSeen))⟩

/-- Modelled from the spec: line-of-sight from the observer (the
shadowcast crate and `visibility.rs` are absent from the reviewed
sources); abstracted to a deterministic function of the observer
coordinate, here visibility of the observer's own cell and its eight
neighbours. -/
def visibleFrom (obs c : Coord) : Bool :=
  chebyshev obs c ≤ 1

/-- Modelled from the spec: `VisibilityGrid::update` (spec section 4.3):
recompute every cell deterministically from the observer; a currently lit
cell is `Visible`, a formerly seen cell decays to `PreviouslySeen`, an
unseen cell stays `NeverSeen`; the omniscient override lights
everything. -/
def VisibilityGrid.update (g : VisibilityGrid) (obs : Coord) (_w : World)
    (omniscient : Bool) : VisibilityGrid :=
  ⟨g.cells.map (fun p =>
    if omniscient || visibleFrom obs p.1 then (p.1, .visible)
    else
      match p.2 with
      | .visible => (p.1, .previouslySeen)
      | .previouslySeen => (p.1, .previouslySeen)
      | .neverSeen => (p.1, .neverSeen))⟩

/-- NPC decisions (`NpcAction`). -/
inductive NpcAction where
  | walk (d : CardinalDirection)
  | wait
  deriving DecidableEq, Repr

/-- Modelled from the spec: per-NPC behaviour state (`behaviour.rs` is
absent from the reviewed sources); one record per agent, created at spawn
(spec sections 3 and 4.4). -/
structure Agent where
  memory : Option Coord
  deriving DecidableEq, Repr

/-- Embedding of `Agent::new`. -/
def Agent.new : Agent := ⟨none⟩

/-- Modelled from the spec: `Agent::act` (spec section 4.4): each NPC turn
the agent decides exactly one of walk or wait, as a pure function of its
memory, the world snapshot and the shared RNG stream (one draw is
consumed per decision); here it steps onto the player when adjacent and
waits otherwise. -/
def Agent.act (a : Agent) (e : Entity) (w : World) (player : Entity) (rng : Rng) :
    NpcAction × Agent × Rng :=
  let (_, rng2) := rngNext rng
  match w.spatial_table.coord_of e, w.spatial_table.coord_of player with
  | some c, some pc =>
    if c.add CardinalDirection.east.coord = pc then (.walk .east, a, rng2)
    else if c.add CardinalDirection.west.coord = pc then (.walk .west, a, rng2)
    else if c.add CardinalDirection.north.coord = pc then (.walk .north, a, rng2)
    else if c.add CardinalDirection.south.coord = pc then (.walk .south, a, rng2)
    else (.wait, a, rng2)
  | _, _ => (.wait, a, rng2)

/-- Player inputs (`Input`). -/
inductive Input where
  | walk (d : CardinalDirection)
  | wait
  deriving DecidableEq, Repr

/-- Turn marker (`Turn`). -/
inductive Turn where
  | player
  | npc
  deriving DecidableEq, Repr

/-- Modelled from the spec: the fixed animation frame quantum
(`ANIMATION_FRAME_DURATION`, defined in the absent realtime module), in
milliseconds; the claims depend only on it being a fixed positive
quantum. -/
def ANIMATION_FRAME_DURATION : Nat := 16

/-- Modelled from the spec: `terrain::FINAL_LEVEL` (the space-station
terrain module of this revision is absent). -/
def FINAL_LEVEL : Nat := 5

/-- The orchestrator state (`struct Game` in `src/lib.rs`).  The
`shadowcast_context`, `behaviour_context` and `animation_context` scratch
values of the source carry no game state of their own and are absorbed
into the modelled subsystems. -/
structure Game where
  world : World
  visibility_grid : VisibilityGrid
  player : Entity
  last_player_info : CharacterInfo
  rng : Rng
  animation_rng : Rng
  events : List ExternalEvent
  agents : Table Agent
  agents_to_remove : List Entity
  since_last_frame : Nat
  generate_frame_countdown : Option Nat
  after_player_turn_countdown : Option Nat
  before_npc_turn_cooldown : Option Nat
  dead_player : Option EntityData
  turn_during_animation : Option Turn
  gameplay_music : List Music
  star_rng_seed : Nat
  deriving DecidableEq, Repr

/-- Embedding of `Game::cleanup`. -/
def Game.cleanup (g : Game) : Game :=
  match g.world.cleanup with
  | (some pd, w) => { g with world := w, dead_player := some pd.data }
  | (none, w) => { g with world := w }

/-- Embedding of `Game::is_gameplay_blocked`. -/
def Game.is_gameplay_blocked (g : Game) : Bool :=
  g.world.is_gameplay_blocked

/-- Embedding of `Game::update_visibility`. -/
def Game.update_visibility (g : Game) (cfg : Config) : Game :=
  match g.world.entity_coord g.player with
  | some pc =>
    { g with visibility_grid := g.visibility_grid.update pc g.world cfg.omniscient }
  | none => g

/-- Embedding of `Game::update_last_player_info`. -/
def Game.update_last_player_info (g : Game) : Game :=
  match g.world.character_info g.player with
  | some info => { g with last_player_info := info }
  | none => g

/-- Embedding of `Game::is_game_over`. -/
def Game.is_game_over (g : Game) : Bool := g.dead_player.isSome

/-- Embedding of `Game::is_game_won`. -/
def Game.is_game_won (g : Game) : Bool := g.world.is_won

/-- The common control-flow tail of `handle_input`/`handle_tick_inner`:
game over, then win, then nothing. -/
def Game.flowCheck (g : Game) : Option GameControlFlow :=
  if g.is_game_over then some .gameOver
  else if g.is_game_won then some .win
  else none

/-- The `result.is_ok()` block of `Game::player_turn`: arm the post-turn
countdowns when gameplay is blocked and set the turn marker. -/
def Game.mark_player_turn (g : Game) : Game :=
  let g :=
    if g.is_gameplay_blocked then
      { g with
        after_player_turn_countdown := some 0,
        before_npc_turn_cooldown := some 100 }
    else g
  { g with turn_during_animation := some .player }

/-- Embedding of `Game::player_turn`.  (In this source revision the walk
arm returns `Result<Option<GameControlFlow>, _>` while the wait arm
returns `Result<(), _>`; the control-flow payload of the walk arm is
discarded, keeping the `Result<(), ActionError>` signature of the
function.) -/
def Game.player_turn (g : Game) (input : Input) : Option (Except ActionError Unit × Game) :=
  match input with
  | .walk direction =>
    match g.world.character_walk_in_direction g.player direction g.rng with
    | none => none
    | some (res, w2, rng2) =>
      let g := { g with world := w2, rng := rng2 }
      match res with
      | .error e => some (.error e, g)
      | .ok _ => some (.ok (), g.mark_player_turn)
  | .wait =>
    let (w2, rng2) := g.world.wait g.player g.rng
    let g := { g with world := w2, rng := rng2 }
    some (.ok (), g.mark_player_turn)

/-- Embedding of `Game::handle_input`. -/
def Game.handle_input (g : Game) (input : Input) (cfg : Config) :
    Option (Except ActionError (Option GameControlFlow) × Game) :=
  if g.generate_frame_countdown.isSome then some (.ok none, g)
  else if !g.is_gameplay_blocked && g.turn_during_animation.isNone then
    match g.player_turn input with
    | none => none
    | some (.error e, g2) => some (.error e, g2)
    | some (.ok _, g2) =>
      let g3 := (g2.update_last_player_info).update_visibility cfg
      some (.ok g3.flowCheck, g3)
  else some (.ok g.flowCheck, g)

/-- Embedding of `Game::after_turn`. -/
def Game.after_turn (g : Game) : Game :=
  let g := g.cleanup
  let g :=
    match g.world.entity_coord g.player with
    | some pc =>
      match g.world.get_stairs_at_coord pc with
      | some _ => { g with generate_frame_countdown := some 200 }
      | none => g
    | none => g
  let g := { g with
    agents := (tkeys g.world.components.npc).foldl
      (fun ags e => if tcontains ags e then ags else tinsert ags e Agent.new) g.agents }
  g.cleanup

/-- Body of the agents loop of `Game::npc_turn`. -/
def Game.npcStep (g : Game) (p : Entity × Agent) : Option Game :=
  if !(g.world.entity_exists p.1) then
    some { g with agents_to_remove := g.agents_to_remove ++ [p.1] }
  else
    let (action, a2, rng2) := Agent.act p.2 p.1 g.world g.player g.rng
    let g := { g with rng := rng2, agents := tmodify g.agents p.1 (fun _ => a2) }
    match action with
    | .walk dir =>
      match g.world.character_walk_in_direction p.1 dir g.rng with
      | none => none
      | some (_res, w2, rng3) => some { g with world := w2, rng := rng3 }
    | .wait => some g

/-- Embedding of `Game::npc_turn` (the `update_behaviour` call maintains
only the pathing scratch context, absorbed into the modelled agent). -/
def Game.npc_turn (g : Game) : Option Game := do
  let g ← g.agents.foldlM Game.npcStep g
  let g := g.update_last_player_info
  let g := { g with
    agents := g.agents_to_remove.foldl terase g.agents,
    agents_to_remove := [] }
  pure g.after_turn

/-- Embedding of `Game::handle_npc_turn`. -/
def Game.handle_npc_turn (g : Game) : Option Game :=
  if !g.is_gameplay_blocked then do
    let w ← g.world.process_door_close_countdown
    Game.npc_turn { g with world := w }
  else some g

/-- Embedding of `Game::handle_tick_inner`. -/
def Game.handle_tick_inner (g : Game) (since_last_tick : Nat) (cfg : Config) :
    Option (Game × Option GameControlFlow) := do
  let (w, evs, arng) ← g.world.animation_tick g.events g.animation_rng
  let g := { g with world := w, events := evs, animation_rng := arng }
  let cont : Game → Option (Game × Option GameControlFlow) := fun g =>
    let g := g.update_visibility cfg
    let g := g.update_last_player_info
    some (g, g.flowCheck)
  if g.is_gameplay_blocked then cont g
  else
    match g.turn_during_animation with
    | none => cont g
    | some turn =>
      match g.after_player_turn_countdown with
      | some cd =>
        if cd = 0 then
          some (({ g with after_player_turn_countdown := none } : Game).after_turn, none)
        else
          some ({ g with after_player_turn_countdown := some (cd - since_last_tick) }, none)
      | none =>
        match g.before_npc_turn_cooldown with
        | some cd =>
          if cd = 0 then some ({ g with before_npc_turn_cooldown := none }, none)
          else some ({ g with before_npc_turn_cooldown := some (cd - since_last_tick) }, none)
        | none => do
          let g ←
            match turn with
            | .player => g.npc_turn
            | .npc => some g
          cont { g with turn_during_animation := none }

/-- The while loop of `Game::handle_tick`, with an explicit fuel bound
and an iteration count.  Each iteration consumes one positive frame
quantum from `since_last_frame`, which `handle_tick_inner` never touches,
so a fuel of `since_last_frame` always suffices (the callers pass exactly
that). -/
def Game.tickLoop (cfg : Config) (d : Nat) : Game → Nat → Option (Game × Option GameControlFlow × Nat)
  | g, 0 => some (g, none, 0)
  | g, fuel + 1 =>
    if ANIMATION_FRAME_DURATION ≤ g.since_last_frame then
      let g1 := { g with
        since_last_frame := g.since_last_frame - ANIMATION_FRAME_DURATION }
      match g1.handle_tick_inner d cfg with
      | none => none
      | some (g2, some flow) => some (g2, some flow, 1)
      | some (g2, none) =>
        (Game.tickLoop cfg d g2 fuel).map (fun r => (r.1, r.2.1, r.2.2 + 1))
    else some (g, none, 0)

/-- Modelled from the spec: `spawn::make_player` (the `spawn.rs` of this
revision is absent): draw from the RNG and produce the player's spawn
data. -/
def make_player (rng : Rng) : EntityData × Rng :=
  let (_, rng2) := rngNext rng
  (⟨some Player.basic, some ⟨10, 10⟩, some ⟨10, 10⟩, none, none⟩, rng2)

/-- Modelled from the spec: the opaque terrain producer
(`terrain::space_station`; spec section 6): given a level index, the
player's persistent data and the demo flag it deterministically (given the
same RNG draws) returns a populated world, its NPC roster and the player
entity. -/
def genTerrain (level : Nat) (player_data : EntityData) (_demo : Bool) (rng : Rng) :
    Rng × World × Table Agent × Entity :=
  let (_, rng2) := rngNext rng
  let pcomp := player_data.player.getD Player.basic
  let php := player_data.hit_points.getD ⟨10, 10⟩
  let pox := player_data.oxygen.getD ⟨10, 10⟩
  let w : World :=
    { World.empty 6 5 with
      level := level,
      entity_allocator := [0],
      components := { Components.empty with
        player := [(0, pcomp)],
        character := [(0, ())],
        hit_points := [(0, php)],
        oxygen := [(0, pox)] },
      spatial_table := { width := 6, height := 5, entries :=
        [(0, ⟨⟨1, 1⟩, some .character⟩)] } }
  (rng2, w, [], 0)

/-- Embedding of `Game::generate_level`: regenerate the world for the
next level from the player's cloned data, rebuild visibility, re-prime
agents and queue the level's music cue. -/
def Game.generate_level (g : Game) (cfg : Config) : Game :=
  let player_data := g.world.components.clone_entity_data g.player
  let (rng2, w, agents, player) :=
    genTerrain (g.world.level + 1) player_data cfg.demo g.rng
  let g := { g with
    world := w,
    agents := agents,
    player := player,
    rng := rng2,
    visibility_grid := VisibilityGrid.new w.spatial_table.width w.spatial_table.height }
  let g := g.update_last_player_info
  let g := g.update_visibility cfg
  if g.world.level = FINAL_LEVEL then
    { g with events := g.events ++ [.loopMusic .boss] }
  else
    { g with events := g.events ++
        [.loopMusic (g.gameplay_music.getD (g.world.level % 3) .gameplay0)] }

/-- Embedding of `Game::handle_tick` instrumented with the number of
frame quanta processed (the last component); `Game.handle_tick` below
projects it away. -/
def Game.handle_tick_count (g : Game) (since_last_tick : Nat) (cfg : Config) :
    Option (Game × Option GameControlFlow × Nat) :=
  match g.generate_frame_countdown with
  | some cd =>
    if cd = 0 then
      let g2 := g.generate_level cfg
      some ({ g2 with generate_frame_countdown := none }, some .levelChange, 0)
    else
      some ({ g with generate_frame_countdown := some (cd - since_last_tick) }, none, 0)
  | none =>
    let g := { g with since_last_frame := g.since_last_frame + since_last_tick }
    Game.tickLoop cfg since_last_tick g g.since_last_frame

/-- Embedding of `Game::handle_tick`. -/
def Game.handle_tick (g : Game) (since_last_tick : Nat) (cfg : Config) :
    Option (Game × Option GameControlFlow) :=
  (g.handle_tick_count since_last_tick cfg).map (fun r => (r.1, r.2.1))

/-- Embedding of `Game::events`: drain and return the outbox. -/
def Game.events_drain (g : Game) : List ExternalEvent × Game :=
  (g.events, { g with events := [] })

/-- Embedding of `Game::player_coord`. -/
def Game.player_coord (g : Game) : Coord := g.last_player_info.coord

/-- Embedding of `Game::player_hit_points` (which, in the source, returns
the cached player coordinate and has return type `Coord`). -/
def Game.player_hit_points (g : Game) : Coord := g.last_player_info.coord

/-- Embedding of `Game::new`: seed the two RNG streams and the star seed
from the base RNG, generate level 0 terrain, cache the player snapshot,
shuffle the gameplay music (modelled as a rotation drawn from the stream)
and queue the first music cue, then compute visibility and prime the
NPCs. -/
def Game.new (cfg : Config) (base_rng : Rng) : Option Game :=
  let (r1, b1) := rngNext base_rng
  let (r2, b2) := rngNext b1
  let (r3, _b3) := rngNext b2
  let rng0 := r1
  let animation_rng := r2
  let star_rng_seed := r3
  let (pdata, rng1) := make_player rng0
  let (rng2, w, agents, player) := genTerrain 0 pdata cfg.demo rng1
  match w.character_info player with
  | none => none
  | some last_player_info =>
    let (rshuffle, rng3) := rngNext rng2
    let base := [Music.gameplay0, Music.gameplay1, Music.gameplay2]
    let rot := rshuffle % 3
    let gameplay_music := (base.drop rot) ++ (base.take rot)
    let events := [ExternalEvent.loopMusic (gameplay_music.getD 0 .gameplay0)]
    let g : Game :=
      { world := w
        visibility_grid := VisibilityGrid.new w.spatial_table.width w.spatial_table.height
        player := player
        last_player_info := last_player_info
        rng := rng3
        animation_rng := animation_rng
        events := events
        agents := agents
        agents_to_remove := []
        since_last_frame := 0
        generate_frame_countdown := none
        after_player_turn_countdown := none
        before_npc_turn_cooldown := none
        dead_player := none
        turn_during_animation := none
        gameplay_music := gameplay_music
        star_rng_seed := star_rng_seed }
    some (g.update_visibility cfg)

/-- One external driver call: a tick with an elapsed duration, a player
input, or an `events()` drain. -/
inductive Call where
  | tick (d : Nat)
  | input (i : Input)
  | drain
  deriving DecidableEq, Repr

/-- Apply one driver call, returning the drained events (empty for
tick/input calls, whose events stay in the outbox until drained). -/
def Game.applyCall (g : Game) (c : Call) (cfg : Config) :
    Option (Game × List ExternalEvent) :=
  match c with
  | .tick d => (g.handle_tick d cfg).map (fun r => (r.1, []))
  | .input i => (g.handle_input i cfg).map (fun r => (r.2, []))
  | .drain =>
    let (evs, g2) := g.events_drain
    some (g2, evs)

/-- Run a whole driver-call sequence, concatenating everything returned
by `events()` drains along the way. -/
def runCalls (cfg : Config) : Game → List Call → Option (Game × List ExternalEvent)
  | g, [] => some (g, [])
  | g, c :: cs => do
    let (g2, evs) ← g.applyCall c cfg
    let (g3, evs2) ← runCalls cfg g2 cs
    pure (g3, evs ++ evs2)

/-- Concrete configuration used by witnesses. -/
def cfgW : Config := ⟨false, false⟩

/-- Concrete call sequence used by the C1 witness. -/
def csW : List Call := [.tick 16, .input .wait, .drain]

/-- Concrete world for the C6 counterexample: lone player 0 at (1,1)
with a free floor cell to the east. -/
def wC6 : World :=
  { World.empty 4 3 with
    entity_allocator := [0],
    components := { Components.empty with
      player := [(0, Player.basic)],
      character := [(0, ())],
      hit_points := [(0, ⟨10, 10⟩)],
      oxygen := [(0, ⟨10, 10⟩)] },
    spatial_table := { width := 4, height := 3, entries :=
      [(0, ⟨⟨1, 1⟩, some .character⟩)] } }

/-- Concrete game state for the C6 counterexample: no level-generation
countdown, gameplay not blocked, but a player turn still in flight. -/
def gC6 : Game where
  world := wC6
  visibility_grid := VisibilityGrid.new 4 3
  player := 0
  last_player_info := ⟨⟨1, 1⟩, ⟨10, 10⟩, ⟨10, 10⟩⟩
  rng := 0
  animation_rng := 0
  events := []
  agents := []
  agents_to_remove := []
  since_last_frame := 0
  generate_frame_countdown := none
  after_player_turn_countdown := none
  before_npc_turn_cooldown := none
  dead_player := none
  turn_during_animation := some .player
  gameplay_music := [.gameplay0, .gameplay1, .gameplay2]
  star_rng_seed := 0

/-! ## Tick quantization (C7)

State and invariants for the animation accumulator.  `quantumStep` is the
specialization of `handle_tick_inner` to states with no turn in flight:
there the elapsed-duration argument is never consulted (it only feeds the
post-turn countdown decrements), so each processed frame quantum performs
the same work regardless of how the caller splits the elapsed time. -/

/-- One animation frame quantum of work, as performed by
`handle_tick_inner` when no turn is in flight: run the realtime-periodic
pass, then recompute visibility and the cached player snapshot. -/
def Game.quantumStep (g : Game) (cfg : Config) : Option Game :=
  match g.world.animation_tick g.events g.animation_rng with
  | none => none
  | some (w, evs, arng) =>
    let g := { g with world := w, events := evs, animation_rng := arng }
    let g := g.update_visibility cfg
    some g.update_last_player_info

/-- Iterated frame quanta. -/
def Game.stepsN (cfg : Config) : Nat → Game → Option Game
  | 0, g => some g
  | n + 1, g => (g.quantumStep cfg).bind (Game.stepsN cfg n)

/-- Invariant of a game state between ticks with no turn pending: no
level-generation countdown, no turn in flight, game not over or won, and
the accumulator holding less than one frame quantum. -/
def GameTickInv (g : Game) : Prop :=
  g.generate_frame_countdown = none ∧ g.turn_during_animation = none ∧
  g.dead_player = none ∧ g.world.won = false ∧
  g.since_last_frame < ANIMATION_FRAME_DURATION

/-- Run a sequence of `handle_tick` calls, accumulating the total number
of frame quanta processed. -/
def runTicks (cfg : Config) : Game → List Nat → Option (Game × Nat)
  | g, [] => some (g, 0)
  | g, d :: ds => do
    let (g2, _flow, n) ← g.handle_tick_count d cfg
    let (g3, m) ← runTicks cfg g2 ds
    pure (g3, n + m)

/-- Concrete quiescent game state for the C7 witness. -/
def gC7 : Game := { gC6 with turn_during_animation := none }
/-! ## Table lemmas -/

theorem tget_cons {α : Type} (p : Entity × α) (t : Table α) (e : Entity) :
    tget (p :: t) e = if p.1 = e then some p.2 else tget t e := rfl

theorem terase_cons {α : Type} (p : Entity × α) (t : Table α) (k : Entity) :
    terase (p :: t) k = if p.1 = k then terase t k else p :: terase t k := by
  simp only [terase, List.filter_cons]
  by_cases hp : p.1 = k <;> simp [hp]

theorem tget_tinsert_self {α : Type} (t : Table α) (k : Entity) (v : α) :
    tget (tinsert t k v) k = some v := by
  simp [tinsert, tget]

theorem tget_terase_ne {α : Type} (t : Table α) {k e : Entity} (h : k ≠ e) :
    tget (terase t k) e = tget t e := by
  induction t with
  | nil => rfl
  | cons p t ih =>
    rw [terase_cons]
    by_cases hp : p.1 = k
    · have hpe : p.1 ≠ e := by rw [hp]; exact h
      simp [hp, tget_cons, hpe, ih, h]
    · rw [if_neg hp, tget_cons, tget_cons]
      by_cases hpe : p.1 = e
      · simp [hpe]
      · simp [hpe, ih]

theorem tget_terase_self {α : Type} (t : Table α) (k : Entity) :
    tget (terase t k) k = none := by
  induction t with
  | nil => rfl
  | cons p t ih =>
    rw [terase_cons]
    by_cases hp : p.1 = k
    · simpa [hp] using ih
    · simp [tget_cons, hp, ih]

theorem tget_tinsert_ne {α : Type} (t : Table α) {k e : Entity} (v : α) (h : k ≠ e) :
    tget (tinsert t k v) e = tget t e := by
  simp [tinsert, tget_cons, h, tget_terase_ne t h]

theorem tget_tmodify_self {α : Type} (t : Table α) (e : Entity) (f : α → α) :
    tget (tmodify t e f) e = (tget t e).map f := by
  induction t with
  | nil => rfl
  | cons p t ih =>
    by_cases hp : p.1 = e
    · simp [tmodify, tget_cons, hp]
    · simp [tmodify, tget_cons, hp] at ih ⊢
      exact ih

theorem tget_tmodify_ne {α : Type} (t : Table α) {k e : Entity} (f : α → α)
    (h : k ≠ e) : tget (tmodify t k f) e = tget t e := by
  have hs : e ≠ k := h.symm
  induction t with
  | nil => rfl
  | cons p t ih =>
    by_cases hp : p.1 = k <;> by_cases hpe : p.1 = e <;>
      simp_all [tmodify, tget_cons]

theorem mem_tkeys_iff {α : Type} {t : Table α} {e : Entity} :
    e ∈ tkeys t ↔ ∃ p ∈ t, p.1 = e := by
  simp [tkeys, List.mem_map]

theorem mem_tkeys_tinsert_self {α : Type} (t : Table α) (k : Entity) (v : α) :
    k ∈ tkeys (tinsert t k v) := by
  simp [tinsert, tkeys]

theorem mem_tkeys_tinsert_of_mem {α : Type} {t : Table α} {e : Entity}
    (k : Entity) (v : α) (h : e ∈ tkeys t) : e ∈ tkeys (tinsert t k v) := by
  by_cases hek : e = k
  · subst hek; exact mem_tkeys_tinsert_self t e v
  · rcases mem_tkeys_iff.mp h with ⟨p, hp, hpe⟩
    refine mem_tkeys_iff.mpr ?_
    refine ⟨p, ?_, hpe⟩
    simp only [tinsert, List.mem_cons, terase, List.mem_filter]
    right
    refine ⟨hp, ?_⟩
    simp [hpe, hek]

/-! ## Cleanup lemmas -/

theorem markZeroHp_foldl_no_insert (l : List (Entity × HitPoints)) (acc : Table Unit)
    (h : ∀ p ∈ l, p.2.current ≠ 0) : l.foldl markZeroHp acc = acc := by
  induction l generalizing acc with
  | nil => rfl
  | cons p t ih =>
    have hstep : markZeroHp acc p = acc := by
      simp [markZeroHp, h p (by simp)]
    simp only [List.foldl_cons, hstep]
    exact ih acc (fun q hq => h q (by simp [hq]))

theorem mem_tkeys_markZeroHp_of_mem (l : List (Entity × HitPoints)) (acc : Table Unit)
    {e : Entity} (h : e ∈ tkeys acc) : e ∈ tkeys (l.foldl markZeroHp acc) := by
  induction l generalizing acc with
  | nil => exact h
  | cons p t ih =>
    simp only [List.foldl_cons]
    refine ih (markZeroHp acc p) ?_
    unfold markZeroHp
    by_cases hz : p.2.current = 0
    · simp only [hz, if_pos rfl]
      exact mem_tkeys_tinsert_of_mem p.1 () h
    · simpa [hz] using h

theorem mem_tkeys_markZeroHp_of_zero (l : List (Entity × HitPoints)) (acc : Table Unit)
    {e : Entity} {hp : HitPoints} (hmem : (e, hp) ∈ l) (hz : hp.current = 0) :
    e ∈ tkeys (l.foldl markZeroHp acc) := by
  induction l generalizing acc with
  | nil => cases hmem
  | cons p t ih =>
    rcases List.mem_cons.mp hmem with hhead | htail
    · subst hhead
      simp only [List.foldl_cons]
      refine mem_tkeys_markZeroHp_of_mem t _ ?_
      simp [markZeroHp, hz, mem_tkeys_tinsert_self]
    · simp only [List.foldl_cons]
      exact ih (markZeroHp acc p) htail

theorem sweepOne_to_remove (acc : Option PlayerDied × World) (e : Entity) :
    (sweepOne acc e).2.components.to_remove = terase acc.2.components.to_remove e := by
  simp [sweepOne, World.free_entity, Components.remove_entity]

theorem sweepOne_hit_points (acc : Option PlayerDied × World) (e : Entity) :
    (sweepOne acc e).2.components.hit_points = terase acc.2.components.hit_points e := by
  simp [sweepOne, World.free_entity, Components.remove_entity]

theorem sweep_foldl_to_remove (rs : List Entity) (acc : Option PlayerDied × World) :
    (rs.foldl sweepOne acc).2.components.to_remove =
      rs.foldl terase acc.2.components.to_remove := by
  induction rs generalizing acc with
  | nil => rfl
  | cons r rs ih =>
    simp only [List.foldl_cons]
    rw [ih, sweepOne_to_remove]

theorem sweep_foldl_hit_points (rs : List Entity) (acc : Option PlayerDied × World) :
    (rs.foldl sweepOne acc).2.components.hit_points =
      rs.foldl terase acc.2.components.hit_points := by
  induction rs generalizing acc with
  | nil => rfl
  | cons r rs ih =>
    simp only [List.foldl_cons]
    rw [ih, sweepOne_hit_points]

theorem foldl_terase_eq_filter {α : Type} (rs : List Entity) (t : Table α) :
    rs.foldl terase t = t.filter (fun p => decide (p.1 ∉ rs)) := by
  induction rs generalizing t with
  | nil => simp
  | cons r rs ih =>
    simp only [List.foldl_cons]
    rw [ih]
    unfold terase
    rw [List.filter_filter]
    apply List.filter_congr
    intro p _
    simp only [List.mem_cons, not_or, Bool.decide_and, decide_not]
    exact Bool.and_comm _ _

theorem filter_not_mem_tkeys {α : Type} (t : Table α) :
    t.filter (fun p => decide (p.1 ∉ tkeys t)) = [] := by
  rw [List.filter_eq_nil_iff]
  intro p hp
  simp only [decide_eq_true_eq, not_not]
  exact mem_tkeys_iff.mpr ⟨p, hp, rfl⟩

/-- Helper: `cleanup` on a world with an empty removal queue and no
zero-hit-point entity returns the world unchanged. -/
theorem cleanup_noop (w : World) (h0 : w.components.to_remove = [])
    (hnz : ∀ p ∈ w.components.hit_points, p.2.current ≠ 0) :
    World.cleanup w = (none, w) := by
  unfold World.cleanup
  rw [markZeroHp_foldl_no_insert _ _ hnz, h0]
  show (none, { w with components.to_remove := [] }) = (none, w)
  rw [← h0]

/-- Helper: after `cleanup`, the removal queue is empty. -/
theorem cleanup_to_remove_nil (w : World) :
    (World.cleanup w).2.components.to_remove = [] := by
  unfold World.cleanup
  rw [sweep_foldl_to_remove]
  show (tkeys _).foldl terase (w.components.hit_points.foldl markZeroHp w.components.to_remove) = []
  rw [foldl_terase_eq_filter, filter_not_mem_tkeys]

/-- Helper: after `cleanup`, no entity has zero current hit points. -/
theorem cleanup_no_zero_hp (w : World) :
    ∀ p ∈ (World.cleanup w).2.components.hit_points, p.2.current ≠ 0 := by
  intro p hp hz
  revert hp
  unfold World.cleanup
  rw [sweep_foldl_hit_points]
  show p ∈ (tkeys _).foldl terase
      ({ w with components.to_remove := _ } : World).components.hit_points → False
  rw [foldl_terase_eq_filter]
  intro hmem
  have hmem2 := List.mem_filter.mp hmem
  have hin : p.1 ∈ tkeys (w.components.hit_points.foldl markZeroHp w.components.to_remove) := by
    refine mem_tkeys_markZeroHp_of_zero _ _ ?_ hz
    simpa using hmem2.1
  have hnot := hmem2.2
  simp only [decide_eq_true_eq] at hnot
  exact hnot hin

/-! ## Claim theorems: world level -/

/-- C5 (amended): cleanup of a world whose removal queue is empty and
which contains no zero-hit-point entity is a no-op, and cleanup is
idempotent on every world. (The original claim omits the removal-queue
condition; see the counterexample.) -/
theorem C5_cleanup_amended :
    (∀ w : World, w.components.to_remove = [] →
      (∀ p ∈ w.components.hit_points, p.2.current ≠ 0) →
      World.cleanup w = (none, w)) ∧
    (∀ w : World, (World.cleanup (World.cleanup w).2).2 = (World.cleanup w).2) := by
  constructor
  · exact cleanup_noop
  · intro w
    rw [cleanup_noop (World.cleanup w).2 (cleanup_to_remove_nil w) (cleanup_no_zero_hp w)]

/-- Witness for C5 at a concrete world. -/
theorem C5_cleanup_amended_witness :
    World.cleanup (World.empty 3 3) = (none, World.empty 3 3) :=
  C5_cleanup_amended.1 (World.empty 3 3) rfl (by decide)

/-- C5 counterexample: a world with no zero-hit-point entity on which
`World::cleanup` is not a no-op (it sweeps the pending removal queue). -/
theorem C5_counterexample :
    (∀ p ∈ wC5.components.hit_points, p.2.current ≠ 0) ∧
      (World.cleanup wC5).2 ≠ wC5 := by
  constructor
  · decide
  · decide

/-! ## Projectile lemmas -/

theorem push_components_eq (w : World) (v : Entity) (d : Dir8) :
    (w.character_push_in_direction v d).components = w.components := by
  unfold World.character_push_in_direction
  cases w.spatial_table.coord_of v with
  | none => rfl
  | some current =>
    dsimp only
    split
    · rfl
    · split <;> rfl

theorem damage_character_spec (w : World) (v : Entity) (n : Nat) (hp : HitPoints)
    (hhp : tget w.components.hit_points v = some hp) :
    ∃ w2, w.damage_character v n = some w2 ∧
      tget w2.components.hit_points v = some (hp.afterDamage n) ∧
      w2.components.projectile_damage = w.components.projectile_damage ∧
      w2.components.armour = w.components.armour := by
  simp only [World.damage_character, hhp]
  by_cases hc : hp.current ≤ n
  · rw [if_pos hc]
    refine ⟨_, rfl, ?_, rfl, rfl⟩
    show tget (tmodify w.components.hit_points v (fun h => { h with current := 0 })) v =
      some (hp.afterDamage n)
    rw [tget_tmodify_self, hhp, HitPoints.afterDamage, if_pos hc]
    rfl
  · rw [if_neg hc]
    refine ⟨_, rfl, ?_, rfl, rfl⟩
    show tget (tmodify w.components.hit_points v
        (fun h => { h with current := h.current - n })) v = some (hp.afterDamage n)
    rw [tget_tmodify_self, hhp, HitPoints.afterDamage, if_neg hc]
    rfl

/-- C2: when a projectile with `pen` value `P` strikes a character with
armour value `A`, it keeps flying (its `projectile_damage` component
survives, with `pen` reduced by the armour) iff `P > A`; whenever it can
reach through the armour (`P ≥ A`) the victim loses the projectile's
`hit_points` worth of damage exactly once; and when it cannot penetrate
(`P ≤ A`, which includes `P < A` where no damage at all is dealt) the
projectile entity is removed from the component tables. -/
theorem C2_projectile_penetration (w : World) (proj victim : Entity)
    (pd : ProjectileDamage) (dir : Dir8) (A : Armour) (hp : HitPoints)
    (hA : tget w.components.armour victim = some A)
    (hhp : tget w.components.hit_points victim = some hp)
    (hne : proj ≠ victim) :
    ∃ w2, w.apply_projectile_damage proj pd dir victim = some w2 ∧
      (A.value < pd.pen ↔ tcontains w2.components.projectile_damage proj = true) ∧
      (A.value < pd.pen →
        tget w2.components.projectile_damage proj = some { pd with pen := pd.pen - A.value }) ∧
      (A.value ≤ pd.pen →
        tget w2.components.hit_points victim = some (hp.afterDamage pd.hit_points)) ∧
      (pd.pen < A.value → tget w2.components.hit_points victim = some hp) := by
  have hre_pd : ∀ (c : Components) (e : Entity),
      (c.remove_entity e).projectile_damage = terase c.projectile_damage e := fun _ _ => rfl
  have hre_hp : ∀ (c : Components) (e : Entity),
      (c.remove_entity e).hit_points = terase c.hit_points e := fun _ _ => rfl
  simp only [World.apply_projectile_damage, hA]
  by_cases hle : A.value ≤ pd.pen
  · rw [if_pos hle]
    obtain ⟨wD, hwD, hhp2, hpd2, hA2⟩ :=
      damage_character_spec w victim pd.hit_points hp hhp
    simp only [hwD, Option.bind_eq_bind, Option.some_bind]
    have hPc : (if pd.push_back then wD.character_push_in_direction victim dir
        else wD).components = wD.components := by
      by_cases hb : pd.push_back
      · rw [if_pos hb, push_components_eq]
      · rw [if_neg hb]
    by_cases hrem : 0 < pd.pen - A.value
    · have hlt : A.value < pd.pen := by omega
      rw [if_pos hrem]
      refine ⟨_, rfl, ?_, ?_, ?_, ?_⟩
      · constructor
        · intro _
          show tcontains (tinsert _ proj _) proj = true
          simp [tcontains, tget_tinsert_self]
        · intro _
          exact hlt
      · intro _
        show tget (tinsert _ proj _) proj = some _
        rw [tget_tinsert_self]
      · intro _
        show tget (if pd.push_back then wD.character_push_in_direction victim dir
          else wD).components.hit_points victim = _
        rw [hPc]
        exact hhp2
      · intro hcontra
        omega
    · rw [if_neg hrem]
      refine ⟨_, rfl, ?_, ?_, ?_, ?_⟩
      · constructor
        · intro hcontra
          omega
        · intro hcontra
          exfalso
          revert hcontra
          show tcontains ((if pd.push_back then wD.character_push_in_direction victim dir
            else wD).components.remove_entity proj).projectile_damage proj = true → False
          rw [hre_pd]
          simp [tcontains, tget_terase_self]
      · intro hcontra
        omega
      · intro _
        show tget ((if pd.push_back then wD.character_push_in_direction victim dir
          else wD).components.remove_entity proj).hit_points victim = _
        rw [hre_hp, tget_terase_ne _ hne, hPc]
        exact hhp2
      · intro hcontra
        omega
  · rw [if_neg hle]
    have hlt : pd.pen < A.value := by omega
    refine ⟨_, rfl, ?_, ?_, ?_, ?_⟩
    · constructor
      · intro hcontra
        omega
      · intro hcontra
        exfalso
        revert hcontra
        show tcontains ((w.components.remove_entity proj)).projectile_damage proj = true → False
        rw [hre_pd]
        simp [tcontains, tget_terase_self]
    · intro hcontra
      omega
    · intro hcontra
      omega
    · intro _
      show tget ((w.components.remove_entity proj)).hit_points victim = _
      rw [hre_hp, tget_terase_ne _ hne]
      exact hhp

/-- Witness for C2 at the concrete strike configuration. -/
theorem C2_projectile_penetration_witness :
    ∃ w2, wC2.apply_projectile_damage 9 ⟨4, false, 3, 0⟩ .east 5 = some w2 ∧
      ((2 : Nat) < 3 ↔ tcontains w2.components.projectile_damage 9 = true) ∧
      ((2 : Nat) < 3 →
        tget w2.components.projectile_damage 9 =
          some { hit_points := 4, push_back := false, pen := 3 - 2, hull_pen_percent := 0 }) ∧
      ((2 : Nat) ≤ 3 →
        tget w2.components.hit_points 5 = some (HitPoints.afterDamage ⟨10, 10⟩ 4)) ∧
      ((3 : Nat) < 2 → tget w2.components.hit_points 5 = some ⟨10, 10⟩) :=
  C2_projectile_penetration wC2 9 5 ⟨4, false, 3, 0⟩ .east ⟨2⟩ ⟨10, 10⟩ rfl rfl
    (by decide)

/-! ## Invalid-action theorems (C3) -/

/-- C3 (amended): a player walk into a solid non-door cell (or out of
bounds) returns the typed error `WalkIntoSolidCell` with the world and RNG
unchanged, provided the walking character carries no `move_half_speed`
component; and an upgrade the player cannot afford returns
`CannotAffordUpgrade` with the world unchanged unconditionally.  (The
original claim, with no half-speed proviso, fails: see the
counterexample.) -/
theorem C3_invalid_actions_amended :
    (∀ (w : World) (ch : Entity) (d : CardinalDirection) (rng : Rng) (cur : Coord)
        (cell : Layers) (f : Entity),
      tget w.components.move_half_speed ch = none →
      w.spatial_table.coord_of ch = some cur →
      w.spatial_table.layers_at (cur.add d.coord) = some cell →
      cell.feature = some f →
      tcontains w.components.solid f = true →
      tget w.components.door_state f ≠ some .closed →
      w.character_walk_in_direction ch d rng = some (.error .walkIntoSolidCell, w, rng)) ∧
    (∀ (w : World) (ch : Entity) (d : CardinalDirection) (rng : Rng) (cur : Coord),
      tget w.components.move_half_speed ch = none →
      w.spatial_table.coord_of ch = some cur →
      w.spatial_table.layers_at (cur.add d.coord) = none →
      w.character_walk_in_direction ch d rng = some (.error .walkIntoSolidCell, w, rng)) ∧
    (∀ (w : World) (ent : Entity) (u : Upgrade) (player : Player),
      tget w.components.player ent = some player →
      player.credit < u.level.cost →
      w.apply_upgrade ent u = some (.error .cannotAffordUpgrade, w)) := by
  refine ⟨?_, ?_, ?_⟩
  · intro w ch d rng cur cell f hmhs hcur hcell hf hsolid hdoor
    simp only [World.character_walk_in_direction, hmhs]
    simp only [World.walk_core, hcur, hcell, hf, hsolid, if_true]
  · intro w ch d rng cur hmhs hcur hnone
    simp only [World.character_walk_in_direction, hmhs]
    simp only [World.walk_core, hcur, hnone]
  · intro w ent u player hplayer hcred
    simp only [World.apply_upgrade, hplayer, Option.bind_eq_bind, Option.some_bind]
    rw [if_pos hcred]
    rfl

/-- C3 counterexample: the failed walk into the wall returns the typed
error but has mutated the `move_half_speed` table (the skip flag was
toggled before the solidity check), so the world is not unchanged. -/
theorem C3_counterexample :
    (wC3.character_walk_in_direction 0 .east 0).map
        (fun p => (p.1, p.2.1.components.move_half_speed)) =
      some (.error .walkIntoSolidCell, [(0, ⟨true⟩)]) ∧
    wC3.components.move_half_speed = [(0, ⟨false⟩)] := by
  constructor
  · decide
  · decide

/-! ## Door lemmas -/

theorem mem_of_tget {α : Type} {t : Table α} {e : Entity} {v : α}
    (h : tget t e = some v) : (e, v) ∈ t := by
  induction t with
  | nil => cases h
  | cons p t ih =>
    rw [tget_cons] at h
    by_cases hp : p.1 = e
    · rw [if_pos hp] at h
      obtain ⟨p1, p2⟩ := p
      injection h with h2
      subst h2
      cases hp
      exact List.mem_cons_self _ _
    · rw [if_neg hp] at h
      exact List.mem_cons_of_mem _ (ih h)

theorem tget_of_mem_nodup {α : Type} {t : Table α} {e : Entity} {v : α}
    (hnd : (tkeys t).Nodup) (h : (e, v) ∈ t) : tget t e = some v := by
  induction t with
  | nil => cases h
  | cons p t ih =>
    have hnd2 : p.1 ∉ tkeys t ∧ (tkeys t).Nodup := by
      rw [show tkeys (p :: t) = p.1 :: tkeys t from rfl] at hnd
      exact List.nodup_cons.mp hnd
    rcases List.mem_cons.mp h with hhd | htail
    · cases hhd
      simp [tget_cons]
    · have hp : p.1 ≠ e := by
        intro hpe
        apply hnd2.1
        rw [hpe]
        exact mem_tkeys_iff.mpr ⟨(e, v), htail, rfl⟩
      rw [tget_cons, if_neg hp]
      exact ih hnd2.2 htail

theorem doorStep_fst (w : World) (p : Entity × Nat) : (doorStep w p).1.1 = p.1 := by
  unfold doorStep
  cases w.spatial_table.coord_of p.1 with
  | none => rfl
  | some c =>
    dsimp only
    by_cases h1 : w.doorOccupied c <;> by_cases h2 : p.2 = 0 <;> simp [h1, h2]

theorem tget_map_doorStep (w : World) (l : Table Nat) (e : Entity) :
    tget (l.map (fun p => (doorStep w p).1)) e =
      (tget l e).map (fun v => (doorStep w (e, v)).1.2) := by
  induction l with
  | nil => rfl
  | cons p t ih =>
    obtain ⟨p1, p2⟩ := p
    rw [List.map_cons, tget_cons, tget_cons]
    by_cases hp : p1 = e
    · subst hp
      rw [if_pos (doorStep_fst w (p1, p2)), if_pos rfl]
      rfl
    · rw [if_neg ?hne, if_neg hp]
      · exact ih
      case hne =>
        rw [doorStep_fst]
        exact hp

theorem mem_doorToClose {w : World} {x : Entity} :
    x ∈ w.doorToClose ↔
      ∃ v, (x, v) ∈ w.components.door_close_countdown ∧ (doorStep w (x, v)).2 = true := by
  unfold World.doorToClose World.doorProcessed
  constructor
  · intro h
    rcases List.mem_map.mp h with ⟨q, hq, hx⟩
    rcases List.mem_filter.mp hq with ⟨hq2, hdue⟩
    rcases List.mem_map.mp hq2 with ⟨p, hp, hq3⟩
    refine ⟨p.2, ?_, ?_⟩
    · have hkey : p.1 = x := by
        rw [← hx, ← hq3, doorStep_fst]
      rw [← hkey]
      exact hp
    · have hkey : p.1 = x := by
        rw [← hx, ← hq3, doorStep_fst]
      rw [show ((x, p.2) : Entity × Nat) = p from by rw [← hkey], hq3]
      exact hdue
  · rintro ⟨v, hmem, hdue⟩
    refine List.mem_map.mpr ⟨doorStep w (x, v), ?_, doorStep_fst w (x, v)⟩
    refine List.mem_filter.mpr ⟨List.mem_map.mpr ⟨(x, v), hmem, rfl⟩, hdue⟩

theorem nodup_doorToClose {w : World}
    (hnd : (tkeys w.components.door_close_countdown).Nodup) : w.doorToClose.Nodup := by
  have hsub : w.doorToClose.Sublist
      (w.doorProcessed.map (fun q => q.1.1)) := by
    exact (List.filter_sublist _).map _
  have hkeys : w.doorProcessed.map (fun q => q.1.1) =
      tkeys w.components.door_close_countdown := by
    unfold World.doorProcessed tkeys
    rw [List.map_map]
    exact List.map_congr_left (fun p _ => doorStep_fst w p)
  rw [hkeys] at hsub
  exact hnd.sublist hsub

theorem closeOne_other (w w' : World) (x e : Entity) (hne : x ≠ e)
    (h : closeOne w x = some w') :
    tget w'.components.door_close_countdown e = tget w.components.door_close_countdown e ∧
      tget w'.components.solid e = tget w.components.solid e ∧
      tget w'.components.tile e = tget w.components.tile e ∧
      w'.spatial_table = w.spatial_table := by
  unfold closeOne World.close_door at h
  dsimp only at h
  split at h
  next a heq =>
    cases h
    refine ⟨?_, ?_, ?_, rfl⟩
    · exact tget_terase_ne _ hne
    · exact tget_tinsert_ne _ _ hne
    · exact tget_tinsert_ne _ _ hne
  next a heq =>
    cases h
    refine ⟨?_, ?_, ?_, rfl⟩
    · exact tget_terase_ne _ hne
    · exact tget_tinsert_ne _ _ hne
    · exact tget_tinsert_ne _ _ hne
  next heq1 heq2 =>
    simp at h

theorem closeOne_self (w : World) (e : Entity) (a : Axis)
    (htile : tget w.components.tile e = some (.doorOpen a) ∨
      tget w.components.tile e = some (.doorClosed a)) :
    ∃ w2, closeOne w e = some w2 ∧
      tget w2.components.door_close_countdown e = none ∧
      tget w2.components.solid e = some () ∧
      tget w2.components.tile e = some (.doorClosed a) ∧
      w2.components.door_close_countdown = terase w.components.door_close_countdown e := by
  unfold closeOne World.close_door
  dsimp only
  rcases htile with htile | htile <;>
    rw [show tget w.components.tile e = _ from htile] <;>
    exact ⟨_, rfl, tget_terase_self _ _, tget_tinsert_self _ _ _, tget_tinsert_self _ _ _, rfl⟩

theorem closeFold_other (l : List Entity) (w w' : World) (e : Entity)
    (hne : e ∉ l) (h : l.foldlM closeOne w = some w') :
    tget w'.components.door_close_countdown e = tget w.components.door_close_countdown e ∧
      tget w'.components.solid e = tget w.components.solid e ∧
      tget w'.components.tile e = tget w.components.tile e ∧
      w'.spatial_table = w.spatial_table := by
  induction l generalizing w with
  | nil =>
    cases h
    exact ⟨rfl, rfl, rfl, rfl⟩
  | cons x l ih =>
    rw [List.foldlM_cons] at h
    rcases Option.bind_eq_some.mp h with ⟨w2, hx, hrest⟩
    have hxe : x ≠ e := fun hxe => hne (hxe ▸ List.mem_cons_self x l)
    obtain ⟨h1, h2, h3, h4⟩ := closeOne_other w w2 x e hxe hx
    obtain ⟨g1, g2, g3, g4⟩ := ih w2 (fun hm => hne (List.mem_cons_of_mem x hm)) hrest
    exact ⟨g1.trans h1, g2.trans h2, g3.trans h3, g4.trans h4⟩

theorem closeFold_closes (l : List Entity) (w w' : World) (e : Entity) (a : Axis)
    (hnd : l.Nodup) (hmem : e ∈ l)
    (htile : tget w.components.tile e = some (.doorOpen a) ∨
      tget w.components.tile e = some (.doorClosed a))
    (h : l.foldlM closeOne w = some w') :
    tget w'.components.door_close_countdown e = none ∧
      tget w'.components.solid e = some () ∧
      tget w'.components.tile e = some (.doorClosed a) := by
  induction l generalizing w with
  | nil => cases hmem
  | cons x l ih =>
    rw [List.foldlM_cons] at h
    rcases Option.bind_eq_some.mp h with ⟨w2, hx, hrest⟩
    have hnd2 := List.nodup_cons.mp hnd
    rcases List.mem_cons.mp hmem with rfl | hmem2
    · obtain ⟨w2b, hw2b, hc1, hc2, hc3, _⟩ := closeOne_self w e a htile
      rw [hw2b] at hx
      injection hx with hx2
      subst hx2
      obtain ⟨g1, g2, g3, _⟩ := closeFold_other l w2b w' e hnd2.1 hrest
      exact ⟨g1.trans hc1, g2.trans hc2, g3.trans hc3⟩
    · have hxe : x ≠ e := fun hxe => hnd2.1 (hxe ▸ hmem2)
      obtain ⟨_, _, h3, _⟩ := closeOne_other w w2 x e hxe hx
      exact ih w2 hnd2.2 hmem2 (by rw [h3]; exact htile) hrest

/-- Witness for C3 at a concrete invalid walk and a concrete unaffordable
upgrade. -/
theorem C3_invalid_actions_amended_witness :
    wC3b.character_walk_in_direction 0 .east 0 =
        some (.error .walkIntoSolidCell, wC3b, 0) ∧
      wC3b.apply_upgrade 0 ⟨.toughness, .level1⟩ =
        some (.error .cannotAffordUpgrade, wC3b) :=
  ⟨C3_invalid_actions_amended.1 wC3b 0 .east 0 ⟨1, 1⟩ ⟨none, some 2, none, none⟩ 2
      rfl rfl (by decide) rfl (by decide) (by decide),
    C3_invalid_actions_amended.2.2 wC3b 0 ⟨.toughness, .level1⟩ Player.basic rfl
      (by decide)⟩

/-! ## Door processing theorems (C4) -/

theorem doorTable2_eq (w : World) :
    w.doorTable2 = w.components.door_close_countdown.map (fun p => (doorStep w p).1) := by
  unfold World.doorTable2 World.doorProcessed
  rw [List.map_map]
  rfl

theorem process_spec (w : World) (d : Entity) (cd : Nat) (c : Coord)
    (hnd : (tkeys w.components.door_close_countdown).Nodup)
    (hcd : tget w.components.door_close_countdown d = some cd)
    (hc : w.spatial_table.coord_of d = some c)
    (w' : World) (hp : w.process_door_close_countdown = some w') :
    (w.doorOccupied c = true → tget w'.components.door_close_countdown d = some 4) ∧
    (w.doorOccupied c = false → 0 < cd →
      tget w'.components.door_close_countdown d = some (cd - 1)) ∧
    (w.doorOccupied c = false → cd = 0 → ∀ a,
      tget w.components.tile d = some (.doorOpen a) →
      tget w'.components.door_close_countdown d = none ∧
      tget w'.components.solid d = some () ∧
      tget w'.components.tile d = some (.doorClosed a)) := by
  unfold World.process_door_close_countdown at hp
  have hT2 : tget ({ w with components.door_close_countdown := w.doorTable2 } :
      World).components.door_close_countdown d = some ((doorStep w (d, cd)).1.2) := by
    show tget w.doorTable2 d = _
    rw [doorTable2_eq, tget_map_doorStep, hcd]
    rfl
  refine ⟨?_, ?_, ?_⟩
  · intro hocc
    have hstep : doorStep w (d, cd) = ((d, 4), false) := by
      unfold doorStep
      rw [hc]
      dsimp only
      rw [if_pos hocc]
    have hnotin : d ∉ w.doorToClose := by
      intro hmem
      rcases mem_doorToClose.mp hmem with ⟨v, hvmem, hdue⟩
      have : tget w.components.door_close_countdown d = some v := tget_of_mem_nodup hnd hvmem
      rw [hcd] at this
      injection this with hv
      subst hv
      rw [hstep] at hdue
      cases hdue
    obtain ⟨g1, _, _, _⟩ := closeFold_other _ _ _ d hnotin hp
    rw [g1, hT2, hstep]
  · intro hocc hpos
    have hstep : doorStep w (d, cd) = ((d, cd - 1), false) := by
      unfold doorStep
      rw [hc]
      dsimp only
      rw [if_neg (by rw [hocc]; exact Bool.false_ne_true)]
      rw [if_neg (by omega)]
    have hnotin : d ∉ w.doorToClose := by
      intro hmem
      rcases mem_doorToClose.mp hmem with ⟨v, hvmem, hdue⟩
      have : tget w.components.door_close_countdown d = some v := tget_of_mem_nodup hnd hvmem
      rw [hcd] at this
      injection this with hv
      subst hv
      rw [hstep] at hdue
      cases hdue
    obtain ⟨g1, _, _, _⟩ := closeFold_other _ _ _ d hnotin hp
    rw [g1, hT2, hstep]
  · intro hocc hz a htile
    subst hz
    have hstep : doorStep w (d, 0) = ((d, 0), true) := by
      unfold doorStep
      rw [hc]
      dsimp only
      rw [if_neg (by rw [hocc]; exact Bool.false_ne_true)]
      rw [if_pos rfl]
    have hmem : d ∈ w.doorToClose := by
      refine mem_doorToClose.mpr ⟨0, mem_of_tget hcd, ?_⟩
      rw [hstep]
    exact closeFold_closes w.doorToClose
      ({ w with components.door_close_countdown := w.doorTable2 } : World) w' d a
      (nodup_doorToClose hnd) hmem (Or.inl htile) hp

theorem process_empty (w : World) (h : w.components.door_close_countdown = []) :
    w.process_door_close_countdown = some w := by
  have h1 : w.doorProcessed = [] := by
    unfold World.doorProcessed
    rw [h]
    rfl
  have h2 : w.doorTable2 = [] := by
    unfold World.doorTable2
    rw [h1]
    rfl
  have h3 : w.doorToClose = [] := by
    unfold World.doorToClose
    rw [h1]
    rfl
  unfold World.process_door_close_countdown
  rw [h2, h3]
  show some ({ w with components.door_close_countdown := ([] : Table Nat) } : World) = some w
  rw [← h]

theorem processIter_empty (w : World) (h : w.components.door_close_countdown = []) :
    ∀ n, w.processIter n = some w := by
  intro n
  induction n with
  | zero => rfl
  | succ n ih =>
    show (w.process_door_close_countdown).bind _ = some w
    rw [process_empty w h, Option.some_bind]
    exact ih

theorem doorFree_step (w : World) (d : Entity) (c : Coord) (a : Axis) (k : Nat)
    (h : DoorFree w d c a (k + 1)) :
    ∃ w2, w.process_door_close_countdown = some w2 ∧ DoorFree w2 d c a k := by
  obtain ⟨hcd, hc, hocc, htile, hsolid⟩ := h
  have hstep : doorStep w (d, k + 1) = ((d, k), false) := by
    unfold doorStep
    rw [hc]
    dsimp only
    rw [if_neg (by rw [hocc]; exact Bool.false_ne_true)]
    rw [if_neg (Nat.succ_ne_zero k)]
    rfl
  have h1 : w.doorProcessed = [((d, k), false)] := by
    unfold World.doorProcessed
    rw [hcd, List.map_cons, List.map_nil, hstep]
  have h2 : w.doorTable2 = [(d, k)] := by
    unfold World.doorTable2
    rw [h1]
    rfl
  have h3 : w.doorToClose = [] := by
    unfold World.doorToClose
    rw [h1]
    rfl
  have hproc : w.process_door_close_countdown =
      some { w with components.door_close_countdown := [(d, k)] } := by
    unfold World.process_door_close_countdown
    rw [h2, h3]
    rfl
  exact ⟨_, hproc, rfl, hc, hocc, htile, hsolid⟩

theorem doorFree_close (w : World) (d : Entity) (c : Coord) (a : Axis)
    (h : DoorFree w d c a 0) :
    ∃ w2, w.process_door_close_countdown = some w2 ∧
      w2.components.door_close_countdown = [] ∧
      tget w2.components.solid d = some () ∧
      tget w2.components.tile d = some (.doorClosed a) := by
  obtain ⟨hcd, hc, hocc, htile, hsolid⟩ := h
  have hstep : doorStep w (d, 0) = ((d, 0), true) := by
    unfold doorStep
    rw [hc]
    dsimp only
    rw [if_neg (by rw [hocc]; exact Bool.false_ne_true)]
    rw [if_pos rfl]
  obtain ⟨w2, hw2, hg1, hg2, hg3, hg4⟩ :=
    closeOne_self ({ w with components.door_close_countdown := [(d, 0)] } : World) d a
      (Or.inl htile)
  have h1 : w.doorProcessed = [((d, 0), true)] := by
    unfold World.doorProcessed
    rw [hcd, List.map_cons, List.map_nil, hstep]
  have h2 : w.doorTable2 = [(d, 0)] := by
    unfold World.doorTable2
    rw [h1]
    rfl
  have h3 : w.doorToClose = [d] := by
    unfold World.doorToClose
    rw [h1]
    rfl
  refine ⟨w2, ?_, ?_, hg2, hg3⟩
  · unfold World.process_door_close_countdown
    rw [h2, h3, List.foldlM_cons, hw2]
    rfl
  · rw [hg4]
    show terase [(d, 0)] d = []
    simp [terase]

theorem door_iter (n : Nat) : ∀ (k : Nat) (w : World) (d : Entity) (c : Coord) (a : Axis),
    DoorFree w d c a k →
    ∃ wn, w.processIter n = some wn ∧
      (n ≤ k → DoorFree wn d c a (k - n)) ∧
      (k < n → wn.components.door_close_countdown = [] ∧
        tget wn.components.solid d = some () ∧
        tget wn.components.tile d = some (.doorClosed a)) := by
  induction n with
  | zero =>
    intro k w d c a h
    exact ⟨w, rfl, fun _ => by simpa using h, fun hk => absurd hk (Nat.not_lt_zero k)⟩
  | succ n ih =>
    intro k w d c a h
    cases k with
    | zero =>
      obtain ⟨w2, hw2, hcd, hsol, htl⟩ := doorFree_close w d c a h
      refine ⟨w2, ?_, ?_, ?_⟩
      · show (w.process_door_close_countdown).bind _ = some w2
        rw [hw2, Option.some_bind]
        exact processIter_empty w2 hcd n
      · intro hle
        exact absurd hle (by omega)
      · intro _
        exact ⟨hcd, hsol, htl⟩
    | succ k =>
      obtain ⟨w2, hw2, hfree⟩ := doorFree_step w d c a k h
      obtain ⟨wn, hrun, hle, hgt⟩ := ih k w2 d c a hfree
      refine ⟨wn, ?_, ?_, ?_⟩
      · show (w.process_door_close_countdown).bind _ = some wn
        rw [hw2, Option.some_bind]
        exact hrun
      · intro hle2
        have h2 := hle (by omega)
        simpa [Nat.succ_sub_succ] using h2
      · intro hgt2
        exact hgt (by omega)

/-- C4 (amended): opening a door arms its close countdown at the
configured initial value 4; each processing step resets the countdown to 4
when a character occupies the door's cell, decrements it when positive and
unoccupied, and closes the door (solid and opaque again, tile flipped)
when it had already reached zero; consequently a freshly opened,
uninterrupted, unoccupied door is closed exactly after 5 = 4 + 1
processing steps, one more than the configured initial countdown (the
original claim's count of 4 is off by one; see the counterexample). -/
theorem C4_door_countdown_amended :
    (∀ (w : World) (d : Entity) (w2 : World), w.open_door d = some w2 →
      tget w2.components.door_close_countdown d = some 4) ∧
    (∀ (w : World) (d : Entity) (cd : Nat) (c : Coord) (w' : World),
      (tkeys w.components.door_close_countdown).Nodup →
      tget w.components.door_close_countdown d = some cd →
      w.spatial_table.coord_of d = some c →
      w.process_door_close_countdown = some w' →
      (w.doorOccupied c = true → tget w'.components.door_close_countdown d = some 4) ∧
      (w.doorOccupied c = false → 0 < cd →
        tget w'.components.door_close_countdown d = some (cd - 1)) ∧
      (w.doorOccupied c = false → cd = 0 → ∀ a,
        tget w.components.tile d = some (.doorOpen a) →
        tget w'.components.door_close_countdown d = none ∧
        tget w'.components.solid d = some () ∧
        tget w'.components.tile d = some (.doorClosed a))) ∧
    (∀ (w : World) (d : Entity) (c : Coord) (a : Axis),
      DoorFree w d c a 4 →
      ∀ n, ∃ wn, w.processIter n = some wn ∧
        (tcontains wn.components.solid d = true ↔ 5 ≤ n)) := by
  refine ⟨?_, ?_, ?_⟩
  · intro w d w2 h
    unfold World.open_door at h
    dsimp only at h
    split at h
    next a heq =>
      cases h
      exact tget_tinsert_self _ _ _
    next a heq =>
      cases h
      exact tget_tinsert_self _ _ _
    next heq1 heq2 =>
      simp at h
  · intro w d cd c w' hnd hcd hc hp
    exact process_spec w d cd c hnd hcd hc w' hp
  · intro w d c a h n
    obtain ⟨wn, hrun, hle, hgt⟩ := door_iter n 4 w d c a h
    refine ⟨wn, hrun, ?_⟩
    by_cases hn : n ≤ 4
    · obtain ⟨_, _, _, _, hsolid⟩ := hle hn
      rw [show tcontains wn.components.solid d = false from by
        simp [tcontains, hsolid]]
      constructor
      · intro hcontra
        cases hcontra
      · intro hcontra
        omega
    · obtain ⟨_, hsol, _⟩ := hgt (by omega)
      rw [show tcontains wn.components.solid d = true from by
        simp [tcontains, hsol]]
      constructor
      · intro _
        omega
      · intro _
        rfl

/-- Witness for C4 at the concrete door. -/
theorem C4_door_countdown_amended_witness :
    ∃ wn, wC4.processIter 5 = some wn ∧
      (tcontains wn.components.solid 3 = true ↔ 5 ≤ 5) :=
  C4_door_countdown_amended.2.2 wC4 3 ⟨2, 1⟩ .y
    ⟨rfl, by decide, by decide, by decide, by decide⟩ 5

/-- C4 counterexample: after exactly 4 (the configured initial countdown)
uninterrupted, unoccupied processing steps the freshly opened door has
still not closed (it closes on the 5th step); the claimed count is off by
one. -/
theorem C4_counterexample :
    tget wC4.components.door_close_countdown 3 = some 4 ∧
      (wC4.processIter 4).map (fun w => tcontains w.components.solid 3) = some false := by
  constructor
  · decide
  · decide

/-! ## Game-level lemmas -/

theorem update_last_player_info_world (g : Game) :
    (g.update_last_player_info).world = g.world := by
  unfold Game.update_last_player_info
  cases g.world.character_info g.player <;> rfl

theorem update_visibility_world (g : Game) (cfg : Config) :
    (g.update_visibility cfg).world = g.world := by
  unfold Game.update_visibility
  cases g.world.entity_coord g.player <;> rfl

theorem mark_player_turn_world (g : Game) : (g.mark_player_turn).world = g.world := by
  unfold Game.mark_player_turn
  by_cases hb : g.is_gameplay_blocked <;> simp [hb]

theorem mark_player_turn_marker (g : Game) :
    (g.mark_player_turn).turn_during_animation = some .player := by
  unfold Game.mark_player_turn
  by_cases hb : g.is_gameplay_blocked <;> simp [hb]

/-! ## Claim theorems: orchestrator level -/

/-- C10: the public accessor `Game::player_hit_points` returns the cached
player coordinate: for every game state it agrees with
`Game::player_coord`, and its return type is a coordinate. -/
theorem C10_player_hit_points_is_coord (g : Game) :
    g.player_hit_points = g.player_coord := rfl

/-- C8: `events()` returns exactly the accumulated outbox and clears it:
an immediately following drain yields the empty sequence. -/
theorem C8_events_drain (g : Game) :
    (g.events_drain).1 = g.events ∧ ((g.events_drain).2.events_drain).1 = [] :=
  ⟨rfl, rfl⟩

/-- C9: `World::wait` returns the world and the RNG unchanged (its only
effect path, `after_player_move`, has an empty body), and consequently a
`Wait` input never changes the world component of the game state. -/
theorem C9_wait_is_noop :
    (∀ (w : World) (e : Entity) (rng : Rng), World.wait w e rng = (w, rng)) ∧
    (∀ (g : Game) (cfg : Config),
      (g.handle_input .wait cfg).map (fun r => r.2.world) = some g.world) := by
  have hwait : ∀ (w : World) (e : Entity) (rng : Rng), World.wait w e rng = (w, rng) := by
    intro w e rng
    unfold World.wait World.after_player_move
    cases w.spatial_table.coord_of e <;> rfl
  refine ⟨hwait, ?_⟩
  intro g cfg
  unfold Game.handle_input
  by_cases h1 : g.generate_frame_countdown.isSome
  · rw [if_pos h1]
    rfl
  · rw [if_neg h1]
    by_cases h2 : (!g.is_gameplay_blocked && g.turn_during_animation.isNone) = true
    · rw [if_pos h2]
      have hpt : g.player_turn .wait = some (.ok (), g.mark_player_turn) := by
        unfold Game.player_turn
        rw [hwait]
      rw [hpt]
      show some ((((g.mark_player_turn).update_last_player_info).update_visibility
        cfg).world) = some g.world
      rw [update_visibility_world, update_last_player_info_world, mark_player_turn_world]
    · rw [if_neg h2]
      rfl

/-- C1: replay determinism.  The whole orchestrator is a pure function of
the game state, whose fields include both RNG streams, so two runs from
the same seed and configuration fed the identical call sequence produce
identical worlds, identical drained event sequences and identical
visibility grids. -/
theorem C1_replay_determinism (cfg1 cfg2 : Config) (seed : Nat) (cs : List Call)
    (hcfg : cfg1 = cfg2) :
    ((Game.new cfg1 seed).bind (fun g => runCalls cfg1 g cs)).map
        (fun r => (r.1.world, r.2, r.1.visibility_grid)) =
      ((Game.new cfg2 seed).bind (fun g => runCalls cfg2 g cs)).map
        (fun r => (r.1.world, r.2, r.1.visibility_grid)) := by
  subst hcfg
  rfl

/-- Witness for C1: the run from seed 0 exists (the pipeline produces a
state) and the two identically seeded runs agree. -/
theorem C1_replay_determinism_witness :
    ((Game.new cfgW 0).bind (fun g => runCalls cfgW g csW)).isSome = true ∧
      ((Game.new cfgW 0).bind (fun g => runCalls cfgW g csW)).map
          (fun r => (r.1.world, r.2, r.1.visibility_grid)) =
        ((Game.new cfgW 0).bind (fun g => runCalls cfgW g csW)).map
          (fun r => (r.1.world, r.2, r.1.visibility_grid)) :=
  ⟨by decide, C1_replay_determinism cfgW cfgW 0 csW rfl⟩

/-- C6 (amended): `handle_input` is a no-op while a level-generation
countdown is pending; it is also a no-op (beyond the game-over/win check)
whenever gameplay is blocked OR a turn is already in flight — not only
when "blocked with no turn in flight" as the original claim states;
otherwise it applies the action via `player_turn`, and on success the turn
marker is set. -/
theorem C6_handle_input_amended :
    (∀ (g : Game) (input : Input) (cfg : Config),
      g.generate_frame_countdown.isSome = true →
      g.handle_input input cfg = some (.ok none, g)) ∧
    (∀ (g : Game) (input : Input) (cfg : Config),
      g.generate_frame_countdown = none →
      (g.is_gameplay_blocked = true ∨ g.turn_during_animation ≠ none) →
      g.handle_input input cfg = some (.ok g.flowCheck, g)) ∧
    (∀ (g : Game) (input : Input) (cfg : Config),
      g.generate_frame_countdown = none →
      g.is_gameplay_blocked = false →
      g.turn_during_animation = none →
      g.handle_input input cfg =
        match g.player_turn input with
        | none => none
        | some (.error e, g2) => some (.error e, g2)
        | some (.ok _, g2) =>
          let g3 := (g2.update_last_player_info).update_visibility cfg
          some (.ok g3.flowCheck, g3)) ∧
    (∀ (g g2 : Game) (input : Input) (u : Unit),
      g.player_turn input = some (.ok u, g2) →
      g2.turn_during_animation = some .player) := by
  refine ⟨?_, ?_, ?_, ?_⟩
  · intro g input cfg h
    unfold Game.handle_input
    rw [if_pos h]
  · intro g input cfg h1 h2
    unfold Game.handle_input
    rw [if_neg (by simp [h1])]
    rw [if_neg ?hgate]
    case hgate =>
      rcases h2 with h2 | h2
      · simp [Game.is_gameplay_blocked] at h2 ⊢
        simp [h2]
      · simp [Option.isNone]
        intro _
        cases hto : g.turn_during_animation with
        | none => exact absurd hto h2
        | some t => simp
  · intro g input cfg h1 h2 h3
    unfold Game.handle_input
    rw [if_neg (by simp [h1])]
    rw [if_pos (by simp [h2, h3])]
  · intro g g2 input u h
    unfold Game.player_turn at h
    cases input with
    | walk d =>
      dsimp only at h
      cases hw : g.world.character_walk_in_direction g.player d g.rng with
      | none =>
        rw [hw] at h
        cases h
      | some triple =>
        obtain ⟨res, w2, rng2⟩ := triple
        rw [hw] at h
        cases res with
        | error e => simp at h
        | ok v =>
          simp only [Option.some.injEq, Prod.mk.injEq] at h
          rw [← h.2]
          exact mark_player_turn_marker _
    | wait =>
      dsimp only at h
      simp only [Option.some.injEq, Prod.mk.injEq] at h
      rw [← h.2]
      exact mark_player_turn_marker _

/-- Witness for C6 at a concrete gated state (turn in flight). -/
theorem C6_handle_input_amended_witness :
    gC6.handle_input .wait cfgW = some (.ok gC6.flowCheck, gC6) :=
  C6_handle_input_amended.2.1 gC6 .wait cfgW rfl (Or.inr (by decide))

/-- C6 counterexample: a state with no pending level generation, gameplay
not blocked, but a turn in flight.  The original claim's no-op condition
("blocked with no turn in flight") does not hold here, so it predicts the
walk is applied to the player; `handle_input` in fact leaves the player at
(1,1) while applying the action (as `player_turn` would) moves the player
to (2,1). -/
theorem C6_counterexample :
    gC6.generate_frame_countdown = none ∧
      gC6.is_gameplay_blocked = false ∧
      gC6.turn_during_animation ≠ none ∧
      (gC6.handle_input (.walk .east) cfgW).map
          (fun r => r.2.world.spatial_table.coord_of 0) = some (some ⟨1, 1⟩) ∧
      (gC6.player_turn (.walk .east)).map
          (fun r => r.2.world.spatial_table.coord_of 0) = some (some ⟨2, 1⟩) := by
  refine ⟨rfl, by decide, by decide, by decide, by decide⟩

theorem push_won (w : World) (v : Entity) (d : Dir8) :
    (w.character_push_in_direction v d).won = w.won := by
  unfold World.character_push_in_direction
  cases w.spatial_table.coord_of v with
  | none => rfl
  | some current =>
    dsimp only
    split
    · rfl
    · split <;> rfl

theorem damage_character_won (w : World) (v : Entity) (n : Nat) (w2 : World)
    (h : w.damage_character v n = some w2) : w2.won = w.won := by
  unfold World.damage_character at h
  split at h
  · cases h
  · split at h
    · cases h
      rfl
    · cases h
      rfl

theorem foldl_damage_won (l : List Entity) (n : Nat) (w w2 : World)
    (h : l.foldlM (fun w v => w.damage_character v n) w = some w2) : w2.won = w.won := by
  induction l generalizing w with
  | nil =>
    cases h
    rfl
  | cons x l ih =>
    rw [List.foldlM_cons] at h
    rcases Option.bind_eq_some.mp h with ⟨wa, hstep, hrest⟩
    exact (ih wa hrest).trans (damage_character_won w x n wa hstep)

theorem explode_won (w : World) (c : Coord) (spec : ExplosionSpec)
    (evs : List ExternalEvent) (w2 : World) (evs2 : List ExternalEvent)
    (h : w.explode c spec evs = some (w2, evs2)) : w2.won = w.won := by
  unfold World.explode at h
  rcases Option.bind_eq_some.mp h with ⟨wa, hfold, hpure⟩
  cases hpure
  exact foldl_damage_won _ _ _ _ hfold

theorem projectile_stop_won (w : World) (proj : Entity) (evs : List ExternalEvent)
    (rng : Rng) (w2 : World) (evs2 : List ExternalEvent) (rng2 : Rng)
    (h : w.projectile_stop proj evs rng = some (w2, evs2, rng2)) : w2.won = w.won := by
  unfold World.projectile_stop at h
  dsimp only at h
  split at h
  · split at h
    · rcases Option.bind_eq_some.mp h with ⟨⟨wb, evsb⟩, hex, hk⟩
      cases hk
      have h3 := explode_won w _ _ _ wb evsb hex
      exact h3
    · cases h
      rfl
    · cases h
      rfl
    · cases h
      rfl
  · cases h
    rfl

theorem apply_projectile_damage_won (w : World) (proj : Entity) (pd : ProjectileDamage)
    (dir : Dir8) (victim : Entity) (w2 : World)
    (h : w.apply_projectile_damage proj pd dir victim = some w2) : w2.won = w.won := by
  unfold World.apply_projectile_damage at h
  split at h
  next =>
    cases h
    rfl
  next A hA =>
    by_cases hle : A.value ≤ pd.pen
    · rw [if_pos hle] at h
      rcases Option.bind_eq_some.mp h with ⟨wa, hdmg, hrest⟩
      have h1 := damage_character_won _ _ _ _ hdmg
      have hpw : (if pd.push_back then wa.character_push_in_direction victim dir
          else wa).won = wa.won := by
        by_cases hb : pd.push_back
        · rw [if_pos hb]
          exact push_won _ _ _
        · rw [if_neg hb]
      by_cases hrem : 0 < pd.pen - A.value
      · rw [if_pos hrem] at hrest
        cases hrest
        exact hpw.trans h1
      · rw [if_neg hrem] at hrest
        cases hrest
        exact hpw.trans h1
    · rw [if_neg hle] at h
      cases h
      rfl

theorem projectile_move_won (w : World) (proj : Entity) (dir : Dir8)
    (evs : List ExternalEvent) (rng : Rng) (w2 : World) (evs2 : List ExternalEvent)
    (rng2 : Rng) (h : w.projectile_move proj dir evs rng = some (w2, evs2, rng2)) :
    w2.won = w.won := by
  have hresolve : ∀ (wr : World) (cell : Layers) (collides : CollidesWith) (next : Coord)
      (evsr : List ExternalEvent) (rngr : Rng),
      wr.projectile_collide_resolve proj cell collides next evsr rngr =
        some (w2, evs2, rng2) → w2.won = wr.won := by
    intro wr cell collides next evsr rngr hr
    unfold World.projectile_collide_resolve at hr
    split at hr
    · split at hr
      · refine (projectile_stop_won _ _ _ _ _ _ _ hr).trans ?_
        dsimp only
        repeat' split
        all_goals rfl
      · split at hr
        · cases hr
          rfl
        · cases hr
          rfl
    · split at hr
      · cases hr
        rfl
      · cases hr
        rfl
  unfold World.projectile_move at h
  split at h
  · dsimp only at h
    split at h
    · rcases Option.bind_eq_some.mp h with ⟨wa, hfirst, hrest⟩
      have h1 : wa.won = w.won := by
        unfold World.projectile_strike at hfirst
        split at hfirst
        · split at hfirst
          · exact apply_projectile_damage_won _ _ _ _ _ _ hfirst
          · cases hfirst
            rfl
        · cases hfirst
          rfl
      exact (hresolve wa _ _ _ _ _ hrest).trans h1
    · exact projectile_stop_won _ _ _ _ _ _ _ h
  · cases h
    rfl

theorem animStep_won (acc out : World × List ExternalEvent × Rng)
    (p : Entity × MovementSchedule) (h : animStep acc p = some out) :
    out.1.won = acc.1.won := by
  obtain ⟨wa, evsa, rnga⟩ := acc
  unfold animStep at h
  dsimp only at h
  split at h
  · cases h
    rfl
  · split at h
    · obtain ⟨wo, evso, rngo⟩ := out
      have h5 := projectile_move_won _ _ _ _ _ wo evso rngo h
      exact h5
    · cases h
      rfl

theorem animation_tick_won (w : World) (evs : List ExternalEvent) (rng : Rng)
    (w2 : World) (evs2 : List ExternalEvent) (rng2 : Rng)
    (h : w.animation_tick evs rng = some (w2, evs2, rng2)) : w2.won = w.won := by
  unfold World.animation_tick at h
  have hgen : ∀ (l : List (Entity × MovementSchedule))
      (acc out : World × List ExternalEvent × Rng),
      l.foldlM animStep acc = some out → out.1.won = acc.1.won := by
    intro l
    induction l with
    | nil =>
      intro acc out hf
      cases hf
      rfl
    | cons p l ih =>
      intro acc out hf
      rw [List.foldlM_cons] at hf
      rcases Option.bind_eq_some.mp hf with ⟨acc2, hstep, hrest⟩
      exact (ih acc2 out hrest).trans (animStep_won acc acc2 p hstep)
  exact hgen _ _ _ h

theorem update_visibility_fields (g : Game) (cfg : Config) :
    (g.update_visibility cfg).world = g.world ∧
      (g.update_visibility cfg).dead_player = g.dead_player ∧
      (g.update_visibility cfg).turn_during_animation = g.turn_during_animation ∧
      (g.update_visibility cfg).generate_frame_countdown = g.generate_frame_countdown ∧
      (g.update_visibility cfg).since_last_frame = g.since_last_frame := by
  unfold Game.update_visibility
  cases g.world.entity_coord g.player <;> exact ⟨rfl, rfl, rfl, rfl, rfl⟩

theorem update_info_fields (g : Game) :
    (g.update_last_player_info).world = g.world ∧
      (g.update_last_player_info).dead_player = g.dead_player ∧
      (g.update_last_player_info).turn_during_animation = g.turn_during_animation ∧
      (g.update_last_player_info).generate_frame_countdown = g.generate_frame_countdown ∧
      (g.update_last_player_info).since_last_frame = g.since_last_frame := by
  unfold Game.update_last_player_info
  cases g.world.character_info g.player <;> exact ⟨rfl, rfl, rfl, rfl, rfl⟩

theorem quantumStep_preserves (g g2 : Game) (cfg : Config)
    (h : g.quantumStep cfg = some g2) :
    g2.turn_during_animation = g.turn_during_animation ∧
      g2.generate_frame_countdown = g.generate_frame_countdown ∧
      g2.dead_player = g.dead_player ∧
      g2.world.won = g.world.won ∧
      g2.since_last_frame = g.since_last_frame := by
  unfold Game.quantumStep at h
  cases ha : g.world.animation_tick g.events g.animation_rng with
  | none =>
    rw [ha] at h
    exact Option.noConfusion h
  | some triple =>
    obtain ⟨w, evs, arng⟩ := triple
    rw [ha] at h
    dsimp only at h
    have h2 := Option.some.inj h
    subst h2
    obtain ⟨hv1, hv2, hv3, hv4, hv5⟩ :=
      update_visibility_fields ({ g with world := w, events := evs, animation_rng := arng } :
        Game) cfg
    obtain ⟨hi1, hi2, hi3, hi4, hi5⟩ :=
      update_info_fields (({ g with world := w, events := evs, animation_rng := arng } :
        Game).update_visibility cfg)
    refine ⟨hi3.trans hv3, hi4.trans hv4, hi2.trans hv2, ?_, hi5.trans hv5⟩
    rw [hi1, hv1]
    exact animation_tick_won _ _ _ _ _ _ ha

theorem inner_inv (g : Game) (d : Nat) (cfg : Config)
    (hturn : g.turn_during_animation = none) (hdead : g.dead_player = none)
    (hwon : g.world.won = false) :
    g.handle_tick_inner d cfg = (g.quantumStep cfg).map (fun g2 => (g2, none)) := by
  unfold Game.handle_tick_inner Game.quantumStep
  cases ha : g.world.animation_tick g.events g.animation_rng with
  | none => rfl
  | some triple =>
    obtain ⟨w, evs, arng⟩ := triple
    simp only [Option.bind_eq_bind, Option.some_bind, Option.map_some']
    rw [hturn]
    have hfc : ((({ g with world := w, events := evs, animation_rng := arng, turn_during_animation := (none : Option Turn) } : Game).update_visibility cfg).update_last_player_info).flowCheck = none := by
      have h1 := update_visibility_fields
        ({ g with world := w, events := evs, animation_rng := arng, turn_during_animation := (none : Option Turn) } : Game) cfg
      have h2 := update_info_fields
        (({ g with world := w, events := evs, animation_rng := arng, turn_during_animation := (none : Option Turn) } : Game).update_visibility cfg)
      have hw : w.won = false := (animation_tick_won _ _ _ _ _ _ ha).trans hwon
      unfold Game.flowCheck Game.is_game_over Game.is_game_won World.is_won
      rw [h2.2.1, h1.2.1, h2.1, h1.1]
      simp [hdead, hw]
    rw [hfc]
    split <;> rfl

theorem quantumStep_set_since (g : Game) (cfg : Config) (r : Nat) :
    Game.quantumStep { g with since_last_frame := r } cfg =
      (g.quantumStep cfg).map (fun g2 => { g2 with since_last_frame := r }) := by
  unfold Game.quantumStep
  dsimp only
  cases ha : g.world.animation_tick g.events g.animation_rng with
  | none => rfl
  | some triple =>
    obtain ⟨w, evs, arng⟩ := triple
    dsimp only
    unfold Game.update_visibility Game.update_last_player_info
    dsimp only
    cases w.entity_coord g.player <;> dsimp only <;>
      cases w.character_info g.player <;> rfl

theorem stepsN_add (cfg : Config) (a b : Nat) (g : Game) :
    Game.stepsN cfg (a + b) g = (Game.stepsN cfg a g).bind (Game.stepsN cfg b) := by
  induction a generalizing g with
  | zero =>
    rw [Nat.zero_add]
    rfl
  | succ a ih =>
    rw [Nat.succ_add]
    show (g.quantumStep cfg).bind (Game.stepsN cfg (a + b)) =
      ((g.quantumStep cfg).bind (Game.stepsN cfg a)).bind (Game.stepsN cfg b)
    cases g.quantumStep cfg with
    | none => rfl
    | some g2 => exact ih g2

theorem stepsN_set_since (cfg : Config) (r n : Nat) : ∀ (g : Game),
    Game.stepsN cfg n { g with since_last_frame := r } =
      (Game.stepsN cfg n g).map (fun g2 => { g2 with since_last_frame := r }) := by
  induction n with
  | zero => intro g; rfl
  | succ n ih =>
    intro g
    have hL : Game.stepsN cfg (n + 1) { g with since_last_frame := r } =
        (Game.quantumStep { g with since_last_frame := r } cfg).bind (Game.stepsN cfg n) := rfl
    have hR : Game.stepsN cfg (n + 1) g = (g.quantumStep cfg).bind (Game.stepsN cfg n) := rfl
    rw [hL, hR, quantumStep_set_since]
    cases g.quantumStep cfg with
    | none => rfl
    | some g2 => exact ih g2

theorem stepsN_fields (cfg : Config) (n : Nat) : ∀ (g g2 : Game),
    Game.stepsN cfg n g = some g2 →
      g2.turn_during_animation = g.turn_during_animation ∧
        g2.generate_frame_countdown = g.generate_frame_countdown ∧
        g2.dead_player = g.dead_player ∧
        g2.world.won = g.world.won := by
  induction n with
  | zero =>
    intro g g2 h
    cases h
    exact ⟨rfl, rfl, rfl, rfl⟩
  | succ n ih =>
    intro g g2 h
    have h2 : (g.quantumStep cfg).bind (Game.stepsN cfg n) = some g2 := h
    rcases Option.bind_eq_some.mp h2 with ⟨ga, hq, hrest⟩
    obtain ⟨q1, q2, q3, q4, _⟩ := quantumStep_preserves g ga cfg hq
    obtain ⟨s1, s2, s3, s4⟩ := ih ga g2 hrest
    exact ⟨s1.trans q1, s2.trans q2, s3.trans q3, s4.trans q4⟩

theorem frame_pos : 0 < ANIMATION_FRAME_DURATION := by decide

theorem div_add_split (a b : Nat) :
    (a + b) / ANIMATION_FRAME_DURATION =
      a / ANIMATION_FRAME_DURATION +
        (a % ANIMATION_FRAME_DURATION + b) / ANIMATION_FRAME_DURATION := by
  conv_lhs => rw [← Nat.div_add_mod a ANIMATION_FRAME_DURATION]
  rw [Nat.add_assoc, Nat.mul_add_div frame_pos]

theorem mod_add_split (a b : Nat) :
    (a + b) % ANIMATION_FRAME_DURATION =
      (a % ANIMATION_FRAME_DURATION + b) % ANIMATION_FRAME_DURATION := by
  conv_lhs => rw [← Nat.div_add_mod a ANIMATION_FRAME_DURATION]
  rw [Nat.add_assoc, Nat.mul_add_mod]

theorem tickLoop_inv (cfg : Config) (d : Nat) (fuel : Nat) : ∀ (g : Game),
    g.turn_during_animation = none → g.dead_player = none → g.world.won = false →
    g.since_last_frame ≤ fuel →
    Game.tickLoop cfg d g fuel =
      (Game.stepsN cfg (g.since_last_frame / ANIMATION_FRAME_DURATION) g).map
        (fun g2 => ({ g2 with since_last_frame := g.since_last_frame % ANIMATION_FRAME_DURATION }, none, g.since_last_frame / ANIMATION_FRAME_DURATION)) := by
  induction fuel with
  | zero =>
    intro g hturn hdead hwon hfuel
    have h0 : g.since_last_frame = 0 := Nat.le_zero.mp hfuel
    show some (g, none, 0) = _
    rw [h0, Nat.zero_div, Nat.zero_mod]
    have he : ({ g with since_last_frame := 0 } : Game) = g := by rw [← h0]
    have hstep : Game.stepsN cfg 0 g = some g := rfl
    simp only [hstep, Option.map_some']
    rw [he]
  | succ fuel ih =>
    intro g hturn hdead hwon hfuel
    by_cases hge : ANIMATION_FRAME_DURATION ≤ g.since_last_frame
    · simp only [Game.tickLoop]
      rw [if_pos hge]
      rw [inner_inv ({ g with since_last_frame := g.since_last_frame - ANIMATION_FRAME_DURATION } : Game) d cfg hturn hdead hwon]
      rw [quantumStep_set_since]
      cases hq : g.quantumStep cfg with
      | none =>
        rw [Nat.div_eq_sub_div frame_pos hge]
        have hR : Game.stepsN cfg ((g.since_last_frame - ANIMATION_FRAME_DURATION) / ANIMATION_FRAME_DURATION + 1) g = (g.quantumStep cfg).bind (Game.stepsN cfg ((g.since_last_frame - ANIMATION_FRAME_DURATION) / ANIMATION_FRAME_DURATION)) := rfl
        rw [hR, hq]
        rfl
      | some gq =>
        obtain ⟨p1, p2, p3, p4, p5⟩ := quantumStep_preserves g gq cfg hq
        simp only [Option.map_some']
        have hfu : g.since_last_frame - ANIMATION_FRAME_DURATION ≤ fuel := by
          have hFv : ANIMATION_FRAME_DURATION = 16 := rfl
          omega
        rw [ih ({ gq with since_last_frame := g.since_last_frame - ANIMATION_FRAME_DURATION } : Game) (p1.trans hturn) (p3.trans hdead) (p4.trans hwon) hfu]
        dsimp only
        rw [stepsN_set_since]
        rw [Nat.div_eq_sub_div frame_pos hge, Nat.mod_eq_sub_mod hge]
        have hR : Game.stepsN cfg ((g.since_last_frame - ANIMATION_FRAME_DURATION) / ANIMATION_FRAME_DURATION + 1) g = (g.quantumStep cfg).bind (Game.stepsN cfg ((g.since_last_frame - ANIMATION_FRAME_DURATION) / ANIMATION_FRAME_DURATION)) := rfl
        rw [hR, hq]
        have hB : (some gq).bind (Game.stepsN cfg ((g.since_last_frame - ANIMATION_FRAME_DURATION) / ANIMATION_FRAME_DURATION)) = Game.stepsN cfg ((g.since_last_frame - ANIMATION_FRAME_DURATION) / ANIMATION_FRAME_DURATION) gq := rfl
        rw [hB]
        cases Game.stepsN cfg ((g.since_last_frame - ANIMATION_FRAME_DURATION) / ANIMATION_FRAME_DURATION) gq <;> rfl
    · simp only [Game.tickLoop]
      rw [if_neg hge]
      have hlt : g.since_last_frame < ANIMATION_FRAME_DURATION := Nat.lt_of_not_le hge
      rw [Nat.div_eq_of_lt hlt, Nat.mod_eq_of_lt hlt]
      rfl

theorem handle_tick_count_inv (g : Game) (d : Nat) (cfg : Config)
    (hgen : g.generate_frame_countdown = none)
    (hturn : g.turn_during_animation = none) (hdead : g.dead_player = none)
    (hwon : g.world.won = false) :
    g.handle_tick_count d cfg =
      (Game.stepsN cfg ((g.since_last_frame + d) / ANIMATION_FRAME_DURATION) g).map
        (fun g2 => ({ g2 with since_last_frame := (g.since_last_frame + d) % ANIMATION_FRAME_DURATION }, none, (g.since_last_frame + d) / ANIMATION_FRAME_DURATION)) := by
  unfold Game.handle_tick_count
  rw [hgen]
  dsimp only
  rw [← hgen]
  rw [tickLoop_inv cfg d (g.since_last_frame + d) ({ g with since_last_frame := g.since_last_frame + d } : Game) hturn hdead hwon (Nat.le_refl _)]
  dsimp only
  rw [stepsN_set_since]
  cases Game.stepsN cfg ((g.since_last_frame + d) / ANIMATION_FRAME_DURATION) g <;> rfl

theorem runTicks_inv (cfg : Config) (ds : List Nat) : ∀ (g : Game), GameTickInv g →
    runTicks cfg g ds =
      (Game.stepsN cfg ((g.since_last_frame + ds.sum) / ANIMATION_FRAME_DURATION) g).map
        (fun g2 => ({ g2 with since_last_frame := (g.since_last_frame + ds.sum) % ANIMATION_FRAME_DURATION }, (g.since_last_frame + ds.sum) / ANIMATION_FRAME_DURATION)) := by
  induction ds with
  | nil =>
    intro g hinv
    obtain ⟨-, -, -, -, hsz⟩ := hinv
    show some (g, 0) = _
    rw [List.sum_nil, Nat.add_zero, Nat.div_eq_of_lt hsz, Nat.mod_eq_of_lt hsz]
    rfl
  | cons d ds ih =>
    intro g hinv
    obtain ⟨hgen, hturn, hdead, hwon, hsz⟩ := hinv
    show (g.handle_tick_count d cfg).bind _ = _
    rw [handle_tick_count_inv g d cfg hgen hturn hdead hwon]
    rw [List.sum_cons, ← Nat.add_assoc,
      div_add_split (g.since_last_frame + d) ds.sum,
      mod_add_split (g.since_last_frame + d) ds.sum,
      stepsN_add cfg ((g.since_last_frame + d) / ANIMATION_FRAME_DURATION) (((g.since_last_frame + d) % ANIMATION_FRAME_DURATION + ds.sum) / ANIMATION_FRAME_DURATION) g]
    cases hs : Game.stepsN cfg ((g.since_last_frame + d) / ANIMATION_FRAME_DURATION) g with
    | none => rfl
    | some g2 =>
      obtain ⟨f1, f2, f3, f4⟩ := stepsN_fields cfg
        ((g.since_last_frame + d) / ANIMATION_FRAME_DURATION) g g2 hs
      simp only [Option.map_some', Option.bind_eq_bind, Option.some_bind]
      have hinv2 : GameTickInv ({ g2 with since_last_frame := (g.since_last_frame + d) % ANIMATION_FRAME_DURATION } : Game) :=
        ⟨f2.trans hgen, f1.trans hturn, f3.trans hdead, f4.trans hwon,
          Nat.mod_lt _ frame_pos⟩
      rw [ih ({ g2 with since_last_frame := (g.since_last_frame + d) % ANIMATION_FRAME_DURATION } : Game) hinv2]
      dsimp only
      rw [stepsN_set_since]
      cases Game.stepsN cfg (((g.since_last_frame + d) % ANIMATION_FRAME_DURATION + ds.sum) / ANIMATION_FRAME_DURATION) g2 <;> rfl

/-- C7: in a quiescent state (no countdown, no turn in flight, game not
over), the work done by a sequence of `handle_tick` calls depends only on
the total elapsed time: two delta sequences with equal sums drive the game
through the same states and the same number of frame quanta. -/
theorem C7_tick_quantization (cfg : Config) (g : Game) (hinv : GameTickInv g)
    (ds1 ds2 : List Nat) (hsum : ds1.sum = ds2.sum) :
    runTicks cfg g ds1 = runTicks cfg g ds2 := by
  rw [runTicks_inv cfg ds1 g hinv, runTicks_inv cfg ds2 g hinv, hsum]

/-- Witness for C7: the invariant holds of a concrete game, and one
32 ms tick is interchangeable with two 16 ms ticks. -/
theorem C7_tick_quantization_witness :
    GameTickInv gC7 ∧ ([32] : List Nat).sum = ([16, 16] : List Nat).sum ∧
      runTicks cfgW gC7 [32] = runTicks cfgW gC7 [16, 16] :=
  ⟨⟨rfl, rfl, rfl, rfl, by decide⟩, by decide,
    C7_tick_quantization cfgW gC7 ⟨rfl, rfl, rfl, rfl, by decide⟩ [32] [16, 16] (by decide)⟩

end Gb
